import Mathlib

/-!
# Verification of the load-balancer reconciler and inventory builder

Shallow embedding of the two Python scripts of this repository:

* `azure_rm_loadbalancer_c.py` — a declarative Azure load-balancer module:
  input validation with defaults, a desired-vs-actual diff comparator that
  raises `DiffErr` on the first mismatch, and a resource builder.
* `inventory/invact.py` — a dynamic inventory script listing running VMs.

Python dictionaries holding string keys are modelled as association lists
(`List (String × α)`) with Python's assignment semantics (`dictInsert`
replaces the value of an existing key in place, otherwise appends).
Python string values obtained with `.get` are modelled as `Option String`
(`none` for a missing key or `None` value); Python truthiness of such a
value (`if d.get(k):`) is `pyTruthyS`, which is false for `none` and for
the empty string.  Integer-valued fields are modelled as `Option Nat`
(`0` is falsy, like in Python).
-/

namespace LB

/-- Python truthiness of an optional string: `None` and `''` are falsy. -/
def pyTruthyS (o : Option String) : Bool :=
  match o with
  | none => false
  | some s => s ≠ ""

/-- Python truthiness of an optional integer: `None` and `0` are falsy. -/
def pyTruthyN (o : Option Nat) : Bool :=
  match o with
  | none => false
  | some n => n ≠ 0

/-- Python `!=` between a `str` on the left and a value that is either a
`str` or `None`: a string never equals `None`. -/
def pyStrNeOpt (p : String) (r : Option String) : Bool :=
  match r with
  | some v => p ≠ v
  | none => true

/-- Python `!=` between an `int` on the left and an `int`-or-`None` value. -/
def pyNatNeOpt (p : Nat) (r : Option Nat) : Bool :=
  match r with
  | some v => p ≠ v
  | none => true

/-- Python `!=` between a `bool` on the left and a `bool`-or-`None` value
(`True != None` is `True`). -/
def pyBoolNeOpt (p : Bool) (r : Option Bool) : Bool :=
  match r with
  | some v => p ≠ v
  | none => true

/-- Python `!=` between an optional-string value on the left (as stored in a
parameter dict) and a `str`-or-`None` value on the right. -/
def pyOptNeStr (r : Option String) (s : String) : Bool :=
  match r with
  | some v => v ≠ s
  | none => true

/-- Python dict assignment `d[k] = v` on a string-keyed dict: replaces the
value of an existing key keeping its position, otherwise appends. -/
def dictInsert {α : Type} (d : List (String × α)) (k : String) (v : α) :
    List (String × α) :=
  match d with
  | [] => [(k, v)]
  | (k', v') :: rest => if k' = k then (k, v) :: rest else (k', v') :: dictInsert rest k v

/-- Build a dict from a list of key/value pairs by repeated assignment
(later pairs overwrite earlier ones, Python-style). -/
def dictBuild {α : Type} (ps : List (String × α)) : List (String × α) :=
  ps.foldl (fun d kv => dictInsert d kv.1 kv.2) []

/-- Python `d1.update(d2)`: assign every pair of `d2` into `d1` in order. -/
def dictUpdate {α : Type} (d e : List (String × α)) : List (String × α) :=
  e.foldl (fun d kv => dictInsert d kv.1 kv.2) d

/-- Python `d[k]` read: the value at `k`, or `none` (a `KeyError`). -/
def dictFind {α : Type} (d : List (String × α)) (k : String) : Option α :=
  match d with
  | [] => none
  | (k', v) :: rest => if k' = k then some v else dictFind rest k

/-- `str.strip('/')` on the character list of a Python string: remove the
leading and trailing runs of `'/'`. -/
def pyStrip (l : List Char) : List Char :=
  ((l.dropWhile (· = '/')).reverse.dropWhile (· = '/')).reverse

/-- `str.split('/')` on the character list of a Python string: split at every
`'/'`, keeping empty pieces; the empty string yields `[[]]`. -/
def pySplit : List Char → List (List Char)
  | [] => [[]]
  | c :: rest =>
    if c = '/' then [] :: pySplit rest
    else
      match pySplit rest with
      | [] => [[c]]
      | p :: ps => (c :: p) :: ps

/-- The pieces of a Python string after `id.strip('/').split('/')`. -/
def pyPieces (s : String) : List String :=
  (pySplit (pyStrip s.data)).map (fun l => String.mk l)

/-- The `while index < len(pieces) - 1` loop of `azureid_to_dict`:
consecutive `(pieces[index], pieces[index+1])` pairs, stepping by two,
dropping a trailing odd piece. -/
def azurePairs : List String → List (String × String)
  | k :: v :: rest => (k, v) :: azurePairs rest
  | _ => []

/-- `azureid_to_dict(id)` from `azure_rm_loadbalancer_c.py`: strip and split
the path on `'/'`, then map each even-position piece to the piece after it. -/
def azureid_to_dict (s : String) : List (String × String) :=
  dictBuild (azurePairs (pyPieces s))

/-- The `for index in range(len(keys))` loop of `Inventory._parse_ref_id`:
every index with `index < len(keys) - 1 and index % 2 == 0` contributes the
pair `(keys[index], keys[index + 1])`. -/
def refPairs (keys : List String) : List (String × String) :=
  (List.range keys.length).filterMap (fun i =>
    if i < keys.length - 1 ∧ i % 2 = 0 then
      some (keys.getD i "", keys.getD (i + 1) "")
    else none)

/-- `Inventory._parse_ref_id(reference)` from `inventory/invact.py`. -/
def parse_ref_id (s : String) : List (String × String) :=
  dictBuild (refPairs (pyPieces s))

/-- A usable path segment: nonempty and without `'/'`. -/
def goodSeg (s : String) : Prop := s ≠ "" ∧ '/' ∉ s.data

instance (s : String) : Decidable (goodSeg s) := by
  unfold goodSeg; infer_instance

/-- Encoding of an alternating (segment-type, segment-name) path as the
slash-delimited string `/t1/n1/t2/n2/...`. -/
def encodePath (ps : List (String × String)) : String :=
  ps.foldl (fun acc kv => acc ++ "/" ++ kv.1 ++ "/" ++ kv.2) ""

/-! ### Correctness of the path decoders -/

/-- The character-list segments of a pair list, flattened in order. -/
def segsOf (ps : List (String × String)) : List (List Char) :=
  ps.flatMap (fun kv => [kv.1.data, kv.2.data])

/-- Join character-list segments with `'/'` between consecutive segments. -/
def joined : List (List Char) → List Char
  | [] => []
  | [s] => s
  | s :: s' :: rest => s ++ '/' :: joined (s' :: rest)

/-- Segments arising from `goodSeg` strings: nonempty and slash-free. -/
def goodSegs (segs : List (List Char)) : Prop :=
  ∀ s ∈ segs, s ≠ [] ∧ '/' ∉ s

/-! ### Desired-state input and validation

`AzureRMLoadBalancer.exec_module` receives the module parameters.  Values
read with `.get` are `Option`s; `name`-like fields are `Option String`
(`none` models a missing key or a `None` value).  The `enable_floating_ip`
raw value is modelled as an `Option String`: the source classifies it by
membership in `['True', 'true', 'Yes', 'yes']`, so every non-member value
(including a missing key) normalizes to `False`. -/

/-- One element of the `frontend_ip_configs` parameter list. -/
structure FrontParam where
  name : Option String
  public_ip_name : Option String
  private_ip_address : Option String
  subnet_name : Option String
  vnet_name : Option String
  resource_group : Option String
deriving DecidableEq

/-- One element of the `health_probes` parameter list. -/
structure ProbeParam where
  name : Option String
  port : Option Nat
  protocol : Option String
  interval : Option Nat
  fail_count : Option Nat
  request_path : Option String
deriving DecidableEq

/-- One element of the `load_balancing_rules` parameter list. -/
structure RuleParam where
  name : Option String
  frontend_name : Option String
  backend_name : Option String
  probe_name : Option String
  protocol : Option String
  load_distribution : Option String
  frontend_port : Option Nat
  backend_port : Option Nat
  idle_timeout : Option Nat
  enable_floating_ip : Option String
deriving DecidableEq

/-- One element of the `inbound_nat_rules` parameter list. -/
structure NatParam where
  name : Option String
  frontend_name : Option String
  protocol : Option String
  frontend_port : Option Nat
  backend_port : Option Nat
  idle_timeout : Option Nat
  enable_floating_ip : Option String
deriving DecidableEq

/-- The module input for a `state=present` run (each sub-resource
parameter supplied as a list, as the module expects). -/
structure DesiredInput where
  resource_group : String
  name : String
  frontend_ip_configs : List FrontParam
  backend_pools : List String
  health_probes : List ProbeParam
  load_balancing_rules : List RuleParam
  inbound_nat_rules : List NatParam
deriving DecidableEq

/-- `if not x.get(f): x[f] = d` for an integer field. -/
def defaultN (o : Option Nat) (d : Nat) : Nat :=
  match o with
  | some n => if n = 0 then d else n
  | none => d

/-- `if not x.get(f): x[f] = d` for a string field. -/
def defaultS (o : Option String) (d : String) : String :=
  match o with
  | some s => if s = "" then d else s
  | none => d

/-- `x.get('enable_floating_ip') in ['True', 'true', 'Yes', 'yes']`. -/
def normalizeEfi (raw : Option String) : Bool :=
  raw = some "True" ∨ raw = some "true" ∨ raw = some "Yes" ∨ raw = some "yes"

/-- A frontend config after the `CHECK INPUT AND SET DEFAULT VALUE` loop:
the name is a validated string and `resource_group` has its default. -/
structure FrontV where
  name : String
  public_ip_name : Option String
  private_ip_address : Option String
  subnet_name : Option String
  vnet_name : Option String
  resource_group : String
deriving DecidableEq

/-- A health probe after validation, defaults filled in. -/
structure ProbeV where
  name : String
  port : Nat
  protocol : String
  interval : Nat
  fail_count : Nat
  request_path : String
deriving DecidableEq

/-- A load-balancing rule after validation, defaults filled in. -/
structure RuleV where
  name : String
  frontend_name : String
  backend_name : String
  probe_name : String
  protocol : String
  load_distribution : String
  frontend_port : Nat
  backend_port : Nat
  idle_timeout : Nat
  enable_floating_ip : Bool
deriving DecidableEq

/-- An inbound NAT rule after validation, defaults filled in. -/
structure NatRuleV where
  name : String
  frontend_name : String
  protocol : String
  frontend_port : Nat
  backend_port : Nat
  idle_timeout : Nat
  enable_floating_ip : Bool
deriving DecidableEq

/-- The `for front in self.frontend_ip_configs` validation loop with its
accumulating `frontnamelist` (`seen`). -/
def validateFronts (rgDefault : String) (seen : List String) :
    List FrontParam → Except String (List FrontV)
  | [] => .ok []
  | f :: fs =>
    match f.name with
    | none => .error "name is not provided correctly in one of frontend_ip_configs."
    | some n =>
      if n = "" ∨ n ∈ seen then
        .error "name is not provided correctly in one of frontend_ip_configs."
      else if ¬ pyTruthyS f.public_ip_name ∧
          ¬ (pyTruthyS f.subnet_name ∧ pyTruthyS f.vnet_name) then
        .error "frontend_ip_configs error: neither public_ip_name nor the combination of subnet_name and vnet_name is provided."
      else do
        let rest ← validateFronts rgDefault (seen ++ [n]) fs
        .ok ({ name := n, public_ip_name := f.public_ip_name,
               private_ip_address := f.private_ip_address,
               subnet_name := f.subnet_name, vnet_name := f.vnet_name,
               resource_group := defaultS f.resource_group rgDefault } :: rest)

/-- The `for probe in self.health_probes` validation loop. -/
def validateProbes (seen : List String) :
    List ProbeParam → Except String (List ProbeV)
  | [] => .ok []
  | p :: ps =>
    match p.name with
    | none => .error "name is not provided correctly in one of health_probes."
    | some n =>
      if n = "" ∨ n ∈ seen then
        .error "name is not provided correctly in one of health_probes."
      else do
        let rest ← validateProbes (seen ++ [n]) ps
        .ok ({ name := n, fail_count := defaultN p.fail_count 3,
               interval := defaultN p.interval 15, port := defaultN p.port 80,
               protocol := defaultS p.protocol "Tcp",
               request_path := defaultS p.request_path "/" } :: rest)

/-- The `for rule in self.load_balancing_rules` validation loop; the name
lists are `frontnamelist`, `self.backend_pools` and `probenamelist`. -/
def validateRules (frontnames : List String) (pools : List String)
    (probenames : List String) (seen : List String) :
    List RuleParam → Except String (List RuleV)
  | [] => .ok []
  | r :: rs =>
    match r.name with
    | none => .error "name is not provided in one of load_balancing_rules."
    | some n =>
      if n = "" ∨ n ∈ seen then
        .error "name is not provided in one of load_balancing_rules."
      else if ¬ pyTruthyS r.frontend_name ∨ r.frontend_name.getD "" ∉ frontnames then
        .error "frontend_name is not provied correctly in one of load_balancing_rules."
      else if ¬ pyTruthyS r.backend_name ∨ r.backend_name.getD "" ∉ pools then
        .error "backend_name is not provied correctly in one of load_balancing_rules."
      else if ¬ pyTruthyS r.probe_name ∨ r.probe_name.getD "" ∉ probenames then
        .error "probe_name is not provied correctly in one of load_balancing_rules."
      else do
        let rest ← validateRules frontnames pools probenames (seen ++ [n]) rs
        let fport := defaultN r.frontend_port 80
        .ok ({ name := n, frontend_name := r.frontend_name.getD "",
               backend_name := r.backend_name.getD "",
               probe_name := r.probe_name.getD "",
               load_distribution := defaultS r.load_distribution "Default",
               frontend_port := fport,
               backend_port := defaultN r.backend_port fport,
               protocol := defaultS r.protocol "Tcp",
               enable_floating_ip := normalizeEfi r.enable_floating_ip,
               idle_timeout := defaultN r.idle_timeout 15 } :: rest)

/-- The `for nat in self.inbound_nat_rules` validation loop. -/
def validateNats (frontnames : List String) (seen : List String) :
    List NatParam → Except String (List NatRuleV)
  | [] => .ok []
  | nt :: ns =>
    match nt.name with
    | none => .error "name is not provided in one of inbound_nat_rules."
    | some n =>
      if n = "" ∨ n ∈ seen then
        .error "name is not provided in one of inbound_nat_rules."
      else if ¬ pyTruthyS nt.frontend_name ∨ nt.frontend_name.getD "" ∉ frontnames then
        .error "frontend_name is not provided correctly in one of inbound_nat_rules."
      else if ¬ pyTruthyN nt.frontend_port then
        .error "frontend_port is not provided in one of inbound_nat_rules."
      else if ¬ pyTruthyN nt.backend_port then
        .error "backend_port is not provided in one of inbound_nat_rules."
      else do
        let rest ← validateNats frontnames (seen ++ [n]) ns
        .ok ({ name := n, frontend_name := nt.frontend_name.getD "",
               protocol := defaultS nt.protocol "Tcp",
               frontend_port := nt.frontend_port.getD 0,
               backend_port := nt.backend_port.getD 0,
               enable_floating_ip := normalizeEfi nt.enable_floating_ip,
               idle_timeout := defaultN nt.idle_timeout 4 } :: rest)

/-- The validated module input. -/
structure Validated where
  resource_group : String
  name : String
  fronts : List FrontV
  backend_pools : List String
  probes : List ProbeV
  rules : List RuleV
  nats : List NatRuleV
deriving DecidableEq

/-- The whole `CHECK INPUT AND SET DEFAULT VALUE` section (source lines
356-424), run in order: frontends, probes, rules, NAT rules. -/
def validate (d : DesiredInput) : Except String Validated := do
  let fronts ← validateFronts d.resource_group [] d.frontend_ip_configs
  let probes ← validateProbes [] d.health_probes
  let rules ← validateRules (fronts.map (·.name)) d.backend_pools
    (probes.map (·.name)) [] d.load_balancing_rules
  let nats ← validateNats (fronts.map (·.name)) [] d.inbound_nat_rules
  .ok { resource_group := d.resource_group, name := d.name, fronts := fronts,
        backend_pools := d.backend_pools, probes := probes, rules := rules,
        nats := nats }

/-! ### Actual state

The shape of `load_balancer_to_dict(load_balancer)` restricted to the
fields the comparator reads.  Fields the provider may omit are `Option`s. -/

/-- The serialized `subnet` sub-dict of a frontend ip configuration. -/
structure SubnetState where
  id : String
  name : Option String
  address_prefix : Option String
deriving DecidableEq

/-- The serialized `public_ip_address` sub-dict of a frontend ip
configuration. -/
structure PipState where
  id : String
  location : Option String
  public_ip_allocation_method : Option String
  ip_address : Option String
deriving DecidableEq

/-- One serialized frontend ip configuration. -/
structure FrontState where
  name : String
  private_ip_address : Option String
  private_ip_allocation_method : Option String
  subnet : Option SubnetState
  public_ip_address : Option PipState
deriving DecidableEq

/-- One serialized backend address pool (the comparator reads names only). -/
structure PoolState where
  name : String
deriving DecidableEq

/-- One serialized health probe. -/
structure ProbeState where
  name : String
  protocol : Option String
  port : Option Nat
  interval_in_seconds : Option Nat
  number_of_probes : Option Nat
  request_path : Option String
deriving DecidableEq

/-- One serialized load-balancing rule. -/
structure RuleState where
  name : String
  protocol : Option String
  frontend_ip_configuration_id : String
  backend_address_pool_id : String
  probe_id : String
  load_distribution : Option String
  frontend_port : Option Nat
  backend_port : Option Nat
  idle_timeout_in_minutes : Option Nat
  enable_floating_ip : Option Bool
deriving DecidableEq

/-- One serialized inbound NAT rule (`enable_floating_point_ip` is never
read by the comparator and is omitted). -/
structure NatState where
  name : String
  frontend_ip_configuration_id : String
  protocol : Option String
  frontend_port : Option Nat
  backend_port : Option Nat
  idle_timeout_in_minutes : Option Nat
deriving DecidableEq

/-- The serialized load balancer, restricted to the comparator's reads. -/
structure LBState where
  frontend_ip_configurations : List FrontState
  backend_address_pools : List PoolState
  probes : List ProbeState
  load_balancing_rules : List RuleState
  inbound_nat_rules : List NatState
deriving DecidableEq

/-- `list_to_dict(listin, key)` from the source: a dict keyed by
`l[key]`, later entries overwriting earlier ones. -/
def list_to_dict {α : Type} (listin : List α) (key : α → String) :
    List (String × α) :=
  listin.foldl (fun d l => dictInsert d (key l) l) []

/-! ### The diff comparator

The `try` block of `exec_module` (source lines 440-549).  `DiffErr` is
raised at the first mismatch; `KeyError` and `IndexError` escape from dict
and list accesses; all three are caught by the handler at lines 551-553 and
downgraded to `changed=True`.  A `TypeError` (from subscripting `None`) is
not caught and crashes the module.  The comparison is modelled as an
`Except` value carrying which exception ended it. -/

/-- The reason recorded in the `DiffErr` message: which field differed. -/
inductive DiffReason where
  | frontPublicIp | frontPrivateIp | frontPrivateIpDynamic
  | frontSubnetName | frontVnetName | frontResourceGroup
  | backendPools
  | probePort | probeProtocol | probeInterval | probeFailCount
  | ruleFrontendName | ruleBackendName | ruleProbeName
  | ruleProtocol | ruleLoadDistribution | ruleFrontendPort
  | ruleBackendPort | ruleIdleTimeout | ruleEnableFloatingIp
  | natProtocol | natFrontendPort | natBackendPort
  | natFrontendName | natIdleTimeout
deriving DecidableEq

/-- The exception that ended the comparison. -/
inductive CmpErr where
  | diff (r : DiffReason)
  | keyError
  | indexError
  | typeError
deriving DecidableEq

/-- Python `d[k]`: the value, or a `KeyError`. -/
def dictGet {α : Type} (d : List (String × α)) (k : String) : Except CmpErr α :=
  match dictFind d k with
  | some v => .ok v
  | none => .error CmpErr.keyError

/-- Python string comparison (lexicographic by code point) on char lists. -/
def charListLe : List Char → List Char → Bool
  | [], _ => true
  | _ :: _, [] => false
  | c :: cs, d :: ds =>
    if c.toNat < d.toNat then true
    else if d.toNat < c.toNat then false
    else charListLe cs ds

/-- Python `<=` on strings. -/
def pyStrLe (a b : String) : Bool := charListLe a.data b.data

/-- Insert into a sorted list (ascending). -/
def insortStr (s : String) : List String → List String
  | [] => [s]
  | t :: ts => if pyStrLe s t then s :: t :: ts else t :: insortStr s ts

/-- Python `list.sort()` on a list of strings (ascending). -/
def pySortStr (l : List String) : List String := l.foldr insortStr []

/-- The private-ip block of the frontend comparison (source lines 447-454):
a supplied address must match the actual address and the actual allocation
method must be `'Static'`; an omitted address requires `'Dynamic'`. -/
def privateIpCheck (desired actualIp alloc : Option String) : Except CmpErr Unit :=
  if pyTruthyS desired then
    if pyStrNeOpt (desired.getD "") actualIp || pyOptNeStr alloc "Static" then
      .error (CmpErr.diff DiffReason.frontPrivateIp)
    else .ok ()
  else
    if pyOptNeStr alloc "Dynamic" then
      .error (CmpErr.diff DiffReason.frontPrivateIpDynamic)
    else .ok ()

/-- One iteration of the `for front in param_fronts.keys()` loop (source
lines 442-463).  Line 443 subscripts `results_fronts[front]['subnet']`
with `'id'`: when the serialized subnet is `None` this is an uncaught
`TypeError`.  The parsed subnet-id pairs are merged into the result dict;
the keys the comparator then reads (`subnets`, `virtualNetworks`,
`resourceGroups`) do not occur among the serializer's own keys, so the
merge is modelled as a separate map.  A supplied `public_ip_name` (a
`str`) is compared against the serialized `public_ip_address` (`None` or
a dict), which a string never equals in Python, so a truthy
`public_ip_name` always raises the mismatch. -/
def compareFront (results_fronts : List (String × FrontState)) (p : FrontV) :
    Except CmpErr Unit := do
  let rf ← dictGet results_fronts p.name
  let sid ← (match rf.subnet with
    | none => Except.error CmpErr.typeError
    | some sn => Except.ok sn.id)
  let idMap := azureid_to_dict sid
  if pyTruthyS p.public_ip_name then
    throw (CmpErr.diff DiffReason.frontPublicIp)
  privateIpCheck p.private_ip_address rf.private_ip_address rf.private_ip_allocation_method
  if pyTruthyS p.subnet_name then
    let v ← dictGet idMap "subnets"
    if p.subnet_name.getD "" ≠ v then
      throw (CmpErr.diff DiffReason.frontSubnetName)
  if pyTruthyS p.vnet_name then
    let v ← dictGet idMap "virtualNetworks"
    if p.vnet_name.getD "" ≠ v then
      throw (CmpErr.diff DiffReason.frontVnetName)
  if p.resource_group ≠ "" then
    let v ← dictGet idMap "resourceGroups"
    if p.resource_group ≠ v then
      throw (CmpErr.diff DiffReason.frontResourceGroup)

/-- The backend pool comparison (source lines 465-470): skipped when the
desired pool list is falsy; otherwise both name lists are sorted and only
their first elements are compared (`results_backs[0] != self.backend_pools[0]`).
An empty actual pool list makes `results_backs[0]` an `IndexError`. -/
def compareBackends (pools : List String) (actualPools : List PoolState) :
    Except CmpErr Unit :=
  if pools.isEmpty then .ok ()
  else
    let results_backs := pySortStr ((list_to_dict actualPools (·.name)).map Prod.fst)
    let param_backs := pySortStr pools
    match results_backs with
    | [] => .error CmpErr.indexError
    | r0 :: _ =>
      match param_backs with
      | [] => .error CmpErr.indexError
      | p0 :: _ =>
        if r0 ≠ p0 then .error (CmpErr.diff DiffReason.backendPools) else .ok ()

/-- One iteration of the probe comparison loop (source lines 475-491).
The `request_path` mismatch site (line 491) formats its message via
`results_probes['request_path']`, indexing the name-keyed probe dict with
a field name, which raises `KeyError` before the `DiffErr` is constructed
(unless a probe is literally named `request_path`); the handler catches
both alike, so the site is modelled as a key error. -/
def compareProbe (results_probes : List (String × ProbeState)) (p : ProbeV) :
    Except CmpErr Unit := do
  let rp ← dictGet results_probes p.name
  if p.port ≠ 0 ∧ pyNatNeOpt p.port rp.port then
    throw (CmpErr.diff DiffReason.probePort)
  if p.protocol ≠ "" ∧ pyStrNeOpt p.protocol rp.protocol then
    throw (CmpErr.diff DiffReason.probeProtocol)
  if p.interval ≠ 0 ∧ pyNatNeOpt p.interval rp.interval_in_seconds then
    throw (CmpErr.diff DiffReason.probeInterval)
  if p.fail_count ≠ 0 ∧ pyNatNeOpt p.fail_count rp.number_of_probes then
    throw (CmpErr.diff DiffReason.probeFailCount)
  if p.protocol = "Http" ∧ p.request_path ≠ "" ∧ pyStrNeOpt p.request_path rp.request_path then
    throw CmpErr.keyError

/-- The `enable_floating_ip` check of a load-balancing rule (source lines
523-525): performed only when the desired value is truthy, i.e. `True`. -/
def efiCheck (p : Bool) (r : Option Bool) : Except CmpErr Unit :=
  if p ∧ pyBoolNeOpt p r then
    .error (CmpErr.diff DiffReason.ruleEnableFloatingIp)
  else .ok ()

/-- One iteration of the load-balancing-rule comparison loop (source lines
495-525).  The three reference ids are parsed and merged into the rule's
dict in order (frontend, probe, backend); the keys then read
(`frontendIPConfigurations`, `backendAddressPools`, `probes`) come from
that merge. -/
def compareRule (results_rules : List (String × RuleState)) (r : RuleV) :
    Except CmpErr Unit := do
  let rr ← dictGet results_rules r.name
  let idMap := dictUpdate (dictUpdate (azureid_to_dict rr.frontend_ip_configuration_id)
      (azureid_to_dict rr.probe_id)) (azureid_to_dict rr.backend_address_pool_id)
  if r.frontend_name ≠ "" then
    let v ← dictGet idMap "frontendIPConfigurations"
    if r.frontend_name ≠ v then throw (CmpErr.diff DiffReason.ruleFrontendName)
  if r.backend_name ≠ "" then
    let v ← dictGet idMap "backendAddressPools"
    if r.backend_name ≠ v then throw (CmpErr.diff DiffReason.ruleBackendName)
  if r.probe_name ≠ "" then
    let v ← dictGet idMap "probes"
    if r.probe_name ≠ v then throw (CmpErr.diff DiffReason.ruleProbeName)
  if r.protocol ≠ "" ∧ pyStrNeOpt r.protocol rr.protocol then
    throw (CmpErr.diff DiffReason.ruleProtocol)
  if r.load_distribution ≠ "" ∧ pyStrNeOpt r.load_distribution rr.load_distribution then
    throw (CmpErr.diff DiffReason.ruleLoadDistribution)
  if r.frontend_port ≠ 0 ∧ pyNatNeOpt r.frontend_port rr.frontend_port then
    throw (CmpErr.diff DiffReason.ruleFrontendPort)
  if r.backend_port ≠ 0 ∧ pyNatNeOpt r.backend_port rr.backend_port then
    throw (CmpErr.diff DiffReason.ruleBackendPort)
  if r.idle_timeout ≠ 0 ∧ pyNatNeOpt r.idle_timeout rr.idle_timeout_in_minutes then
    throw (CmpErr.diff DiffReason.ruleIdleTimeout)
  efiCheck r.enable_floating_ip rr.enable_floating_ip

/-- One iteration of the inbound-NAT-rule comparison loop (source lines
529-549).  `enable_floating_ip` is not checked: the source comments the
check out, `DUE TO SDK LIBRARY ERROR`. -/
def compareNat (results_nats : List (String × NatState)) (p : NatRuleV) :
    Except CmpErr Unit := do
  let rn ← dictGet results_nats p.name
  let idMap := azureid_to_dict rn.frontend_ip_configuration_id
  if p.protocol ≠ "" ∧ pyStrNeOpt p.protocol rn.protocol then
    throw (CmpErr.diff DiffReason.natProtocol)
  if p.frontend_port ≠ 0 ∧ pyNatNeOpt p.frontend_port rn.frontend_port then
    throw (CmpErr.diff DiffReason.natFrontendPort)
  if p.backend_port ≠ 0 ∧ pyNatNeOpt p.backend_port rn.backend_port then
    throw (CmpErr.diff DiffReason.natBackendPort)
  if p.frontend_name ≠ "" then
    let v ← dictGet idMap "frontendIPConfigurations"
    if p.frontend_name ≠ v then throw (CmpErr.diff DiffReason.natFrontendName)
  if p.idle_timeout ≠ 0 ∧ pyNatNeOpt p.idle_timeout rn.idle_timeout_in_minutes then
    throw (CmpErr.diff DiffReason.natIdleTimeout)

/-- Run a check for every element of a list, stopping at the first
exception (the loops raise at the first mismatch). -/
def forEachCheck {α : Type} (f : α → Except CmpErr Unit) :
    List α → Except CmpErr Unit
  | [] => .ok ()
  | x :: xs =>
    match f x with
    | .ok _ => forEachCheck f xs
    | .error e => .error e

/-- The whole comparison (the `try` body, lines 440-549): frontends, then
backend pools, probes, rules, NAT rules, in source order. -/
def compareAll (v : Validated) (lb : LBState) : Except CmpErr Unit := do
  forEachCheck (compareFront (list_to_dict lb.frontend_ip_configurations (·.name))) v.fronts
  compareBackends v.backend_pools lb.backend_address_pools
  forEachCheck (compareProbe (list_to_dict lb.probes (·.name))) v.probes
  forEachCheck (compareRule (list_to_dict lb.load_balancing_rules (·.name))) v.rules
  forEachCheck (compareNat (list_to_dict lb.inbound_nat_rules (·.name))) v.nats

/-- Result of the fetch-and-compare phase. -/
inductive PhaseResult where
  | changed
  | unchanged
  | crashed (e : CmpErr)
deriving DecidableEq

/-- The `try/except` around the comparison: a missing load balancer
(`CloudError`) and the caught exceptions (`IndexError`, `KeyError`,
`DiffErr`) all yield `changed`; a `TypeError` is not in the `except`
clause and propagates. -/
def comparePhase (v : Validated) : Option LBState → PhaseResult
  | none => .changed
  | some lb =>
    match compareAll v lb with
    | .ok _ => .unchanged
    | .error (CmpErr.diff _) => .changed
    | .error CmpErr.keyError => .changed
    | .error CmpErr.indexError => .changed
    | .error CmpErr.typeError => .crashed CmpErr.typeError

/-! ### Resource builder and the applied actual state -/

/-- `frontend_ip_configuration_id(...)` from the source (lines 812-819). -/
def frontend_ip_configuration_id (subscription_id resource_group_name
    load_balancer_name name : String) : String :=
  "/subscriptions/" ++ subscription_id ++ "/resourceGroups/" ++
    resource_group_name ++ "/providers/Microsoft.Network/loadBalancers/" ++
    load_balancer_name ++ "/frontendIPConfigurations/" ++ name

/-- `backend_address_pool_id(...)` from the source (lines 822-829). -/
def backend_address_pool_id (subscription_id resource_group_name
    load_balancer_name name : String) : String :=
  "/subscriptions/" ++ subscription_id ++ "/resourceGroups/" ++
    resource_group_name ++ "/providers/Microsoft.Network/loadBalancers/" ++
    load_balancer_name ++ "/backendAddressPools/" ++ name

/-- `probe_id(...)` from the source (lines 832-839). -/
def probe_id (subscription_id resource_group_name
    load_balancer_name name : String) : String :=
  "/subscriptions/" ++ subscription_id ++ "/resourceGroups/" ++
    resource_group_name ++ "/providers/Microsoft.Network/loadBalancers/" ++
    load_balancer_name ++ "/probes/" ++ name

/-- The fully qualified id of the subnet fetched by `get_subnet` for
`resource_group`/`vnet_name`/`subnet_name` (the provider's id shape for a
subnet resource). -/
def subnet_res_id (subscription_id resource_group vnet_name subnet_name : String) :
    String :=
  "/subscriptions/" ++ subscription_id ++ "/resourceGroups/" ++ resource_group ++
    "/providers/Microsoft.Network/virtualNetworks/" ++ vnet_name ++
    "/subnets/" ++ subnet_name

/-- The serialized frontend produced by applying a validated frontend spec
(builder lines 567-589) and re-fetching it: a `public_ip_name` frontend
carries the fetched public ip object and no subnet; a subnet frontend
carries the subnet reference, with `Static` allocation and the supplied
address when one is given, else `Dynamic` allocation and a
provider-assigned address (`dynIp`).  A validated frontend with neither a
public ip nor a subnet/vnet pair cannot exist, and the builder would
append nothing for it. -/
def buildFrontState (sub : String) (dynIp : String → Option String) (f : FrontV) :
    Option FrontState :=
  if pyTruthyS f.public_ip_name then
    -- the serialized public ip dict; the comparator never reads its fields
    let pip : PipState :=
      { id := "", location := none, public_ip_allocation_method := none,
        ip_address := none }
    some { name := f.name, private_ip_address := none,
           private_ip_allocation_method := none, subnet := none,
           public_ip_address := some pip }
  else if pyTruthyS f.vnet_name ∧ pyTruthyS f.subnet_name then
    let sn : SubnetState :=
      { id := subnet_res_id sub f.resource_group (f.vnet_name.getD "")
          (f.subnet_name.getD ""),
        name := f.subnet_name, address_prefix := none }
    if pyTruthyS f.private_ip_address then
      some { name := f.name, private_ip_address := f.private_ip_address,
             private_ip_allocation_method := some "Static", subnet := some sn,
             public_ip_address := none }
    else
      some { name := f.name, private_ip_address := dynIp f.name,
             private_ip_allocation_method := some "Dynamic", subnet := some sn,
             public_ip_address := none }
  else none

/-- The serialized backend pool created for one desired pool name. -/
def buildPoolState (n : String) : PoolState := { name := n }

/-- The serialized probe created from a validated probe spec (builder
lines 595-614): the `request_path` is set only for `Http` probes. -/
def buildProbeState (p : ProbeV) : ProbeState :=
  { name := p.name, protocol := some p.protocol, port := some p.port,
    interval_in_seconds := some p.interval,
    number_of_probes := some p.fail_count,
    request_path := if p.protocol = "Http" then some p.request_path else none }

/-- The serialized load-balancing rule created from a validated rule spec
(builder lines 616-648), its references as fully qualified ids. -/
def buildRuleState (sub rg lbname : String) (r : RuleV) : RuleState :=
  { name := r.name, protocol := some r.protocol,
    frontend_ip_configuration_id :=
      frontend_ip_configuration_id sub rg lbname r.frontend_name,
    backend_address_pool_id :=
      backend_address_pool_id sub rg lbname r.backend_name,
    probe_id := probe_id sub rg lbname r.probe_name,
    load_distribution := some r.load_distribution,
    frontend_port := some r.frontend_port, backend_port := some r.backend_port,
    idle_timeout_in_minutes := some r.idle_timeout,
    enable_floating_ip := some r.enable_floating_ip }

/-- The serialized inbound NAT rule created from a validated NAT spec
(builder lines 650-667). -/
def buildNatState (sub rg lbname : String) (n : NatRuleV) : NatState :=
  { name := n.name,
    frontend_ip_configuration_id :=
      frontend_ip_configuration_id sub rg lbname n.frontend_name,
    protocol := some n.protocol, frontend_port := some n.frontend_port,
    backend_port := some n.backend_port,
    idle_timeout_in_minutes := some n.idle_timeout }

/-- The serialized load balancer that results from building the resource
from a validated spec (builder lines 567-667), submitting it, and
serializing the re-fetched resource with `load_balancer_to_dict`. -/
def buildLB (sub : String) (v : Validated) (dynIp : String → Option String) :
    LBState :=
  { frontend_ip_configurations := v.fronts.filterMap (buildFrontState sub dynIp),
    backend_address_pools := v.backend_pools.map buildPoolState,
    probes := v.probes.map buildProbeState,
    load_balancing_rules := v.rules.map (buildRuleState sub v.resource_group v.name),
    inbound_nat_rules := v.nats.map (buildNatState sub v.resource_group v.name) }

/-! ### The `state=present` run -/

/-- Remote calls issued by `exec_module` for `state=present`. -/
inductive NetCall where
  | getResourceGroup
  | getLoadBalancer
  | getPublicIp
  | getSubnet
  | createOrUpdate
deriving DecidableEq

/-- How a `state=present` run ends: `self.fail` (a structured module
failure), an uncaught Python exception, or a result with `changed`. -/
inductive ExecOutcome where
  | failed (msg : String)
  | crashed (e : CmpErr)
  | ok (changed : Bool)
deriving DecidableEq

/-- The remote environment of one run: whether the resource group lookup
succeeds, and the current load balancer (`none`: the fetch raises
`CloudError`). -/
structure Env where
  resource_group_exists : Bool
  lb : Option LBState

/-- The builder's remote reads (lines 567-589): one public-ip or subnet
fetch per frontend, in order. -/
def builderCalls (v : Validated) : List NetCall :=
  v.fronts.filterMap (fun f =>
    if pyTruthyS f.public_ip_name then some NetCall.getPublicIp
    else if pyTruthyS f.vnet_name ∧ pyTruthyS f.subnet_name then
      some NetCall.getSubnet
    else none)

/-- `exec_module` for `state=present` (source lines 338-681), returning
the remote calls issued in order and the outcome.  Steps: the resource
group is fetched first (line 349); then input validation (lines 356-424);
then the load balancer fetch and comparison; when nothing changed the
module returns without mutating (lines 558-561); otherwise the builder
runs and `create_or_update` is issued.  Tag handling sits in framework
code outside this repository; runs are modelled with no tag parameter, for
which `update_tags` reports no change.  `check_mode` is modelled false. -/
def execPresent (d : DesiredInput) (env : Env) : List NetCall × ExecOutcome :=
  if ¬ env.resource_group_exists then
    ([NetCall.getResourceGroup],
      .failed ("resource group " ++ d.resource_group ++ " not found"))
  else
    match validate d with
    | .error msg => ([NetCall.getResourceGroup], .failed msg)
    | .ok v =>
      match comparePhase v env.lb with
      | .crashed e =>
        ([NetCall.getResourceGroup, NetCall.getLoadBalancer], .crashed e)
      | .unchanged =>
        ([NetCall.getResourceGroup, NetCall.getLoadBalancer], .ok false)
      | .changed =>
        ([NetCall.getResourceGroup, NetCall.getLoadBalancer] ++ builderCalls v ++
          [NetCall.createOrUpdate], .ok true)

/-- All names that end up inside resource paths are usable path segments
(nonempty, no `'/'`), so that path encoding and decoding round-trip. -/
def wellFormedSegs (sub : String) (v : Validated) : Prop :=
  goodSeg sub ∧ goodSeg v.resource_group ∧ goodSeg v.name ∧
  (∀ f ∈ v.fronts, goodSeg f.resource_group ∧ goodSeg (f.subnet_name.getD "") ∧
    goodSeg (f.vnet_name.getD "")) ∧
  (∀ r ∈ v.rules, goodSeg r.frontend_name ∧ goodSeg r.backend_name ∧
    goodSeg r.probe_name) ∧
  (∀ n ∈ v.nats, goodSeg n.frontend_name)

instance (sub : String) (v : Validated) : Decidable (wellFormedSegs sub v) := by
  unfold wellFormedSegs; infer_instance

/-! ### Concrete runs used as counterexamples and witnesses -/

/-- A subnet-based frontend parameter. -/
def fSub : FrontParam :=
  { name := some "f1", public_ip_name := none,
    private_ip_address := some "10.0.0.7", subnet_name := some "sn1",
    vnet_name := some "vn1", resource_group := none }

/-- A probe parameter with an explicit port. -/
def pSub : ProbeParam :=
  { name := some "p1", port := some 443, protocol := none, interval := none,
    fail_count := none, request_path := none }

/-- A rule parameter. -/
def rSub : RuleParam :=
  { name := some "r1", frontend_name := some "f1", backend_name := some "pool1",
    probe_name := some "p1", protocol := none, load_distribution := none,
    frontend_port := some 443, backend_port := none, idle_timeout := none,
    enable_floating_ip := none }

/-- A NAT rule parameter. -/
def nSub : NatParam :=
  { name := some "n1", frontend_name := some "f1", protocol := none,
    frontend_port := some 22, backend_port := some 22, idle_timeout := none,
    enable_floating_ip := none }

/-- A full desired spec whose only frontend is subnet-based. -/
def dSub : DesiredInput :=
  { resource_group := "rg1", name := "lb1", frontend_ip_configs := [fSub],
    backend_pools := ["pool1"], health_probes := [pSub],
    load_balancing_rules := [rSub], inbound_nat_rules := [nSub] }

/-- `dSub` after validation. -/
def vSub : Validated :=
  { resource_group := "rg1", name := "lb1",
    fronts := [{ name := "f1", public_ip_name := none,
                 private_ip_address := some "10.0.0.7",
                 subnet_name := some "sn1", vnet_name := some "vn1",
                 resource_group := "rg1" }],
    backend_pools := ["pool1"],
    probes := [{ name := "p1", port := 443, protocol := "Tcp", interval := 15,
                 fail_count := 3, request_path := "/" }],
    rules := [{ name := "r1", frontend_name := "f1", backend_name := "pool1",
                probe_name := "p1", protocol := "Tcp",
                load_distribution := "Default", frontend_port := 443,
                backend_port := 443, idle_timeout := 15,
                enable_floating_ip := false }],
    nats := [{ name := "n1", frontend_name := "f1", protocol := "Tcp",
               frontend_port := 22, backend_port := 22, idle_timeout := 4,
               enable_floating_ip := false }] }

/-- A fixed provider-assigned dynamic address. -/
def dynFix : String → Option String := fun _ => some "10.0.0.9"

/-- A frontend parameter configured through a public ip name. -/
def fPub : FrontParam :=
  { name := some "f1", public_ip_name := some "pip1",
    private_ip_address := none, subnet_name := none, vnet_name := none,
    resource_group := none }

/-- The desired spec `dSub` with its frontend replaced by a public-ip one. -/
def dPub : DesiredInput := { dSub with frontend_ip_configs := [fPub] }

/-- `dPub` after validation. -/
def vPub : Validated :=
  { vSub with
    fronts := [{ name := "f1", public_ip_name := some "pip1",
                 private_ip_address := none, subnet_name := none,
                 vnet_name := none, resource_group := "rg1" }] }

/-- A desired spec with two frontends carrying the same name. -/
def dDup : DesiredInput := { dSub with frontend_ip_configs := [fSub, fSub] }

/-- A probe parameter that omits every optional field, the port included. -/
def pOmit : ProbeParam :=
  { name := some "p1", port := none, protocol := none, interval := none,
    fail_count := none, request_path := none }

/-- A desired spec whose only sub-resource is the all-defaults probe. -/
def dOmit : DesiredInput :=
  { resource_group := "rg1", name := "lb1", frontend_ip_configs := [],
    backend_pools := [], health_probes := [pOmit], load_balancing_rules := [],
    inbound_nat_rules := [] }

/-- `dOmit` after validation: the omitted probe port became 80. -/
def vOmit : Validated :=
  { resource_group := "rg1", name := "lb1", fronts := [], backend_pools := [],
    probes := [{ name := "p1", port := 80, protocol := "Tcp", interval := 15,
                 fail_count := 3, request_path := "/" }],
    rules := [], nats := [] }

/-- An actual state whose probe `p1` has port 8080 and otherwise matches
every default. -/
def lbOmit : LBState :=
  { frontend_ip_configurations := [], backend_address_pools := [],
    probes := [{ name := "p1", protocol := some "Tcp", port := some 8080,
                 interval_in_seconds := some 15, number_of_probes := some 3,
                 request_path := none }],
    load_balancing_rules := [], inbound_nat_rules := [] }

/-- A validated frontend whose `subnet_name` and `vnet_name` are omitted
(it was configured through a public ip). -/
def fvOnlyPub : FrontV :=
  { name := "f1", public_ip_name := some "pip1", private_ip_address := none,
    subnet_name := none, vnet_name := none, resource_group := "rg1" }

/-- A validated spec demanding a frontend named `f1`. -/
def vKeyErr : Validated :=
  { resource_group := "rg1", name := "lb1",
    fronts := [{ name := "f1", public_ip_name := none,
                 private_ip_address := none, subnet_name := some "sn1",
                 vnet_name := some "vn1", resource_group := "rg1" }],
    backend_pools := [], probes := [], rules := [], nats := [] }

/-- An actual state with no frontends at all: looking up `f1` in its
frontend dict is a `KeyError`. -/
def lbEmpty : LBState :=
  { frontend_ip_configurations := [], backend_address_pools := [], probes := [],
    load_balancing_rules := [], inbound_nat_rules := [] }

end LB

namespace Inv

/-! ### The inventory builder (`inventory/invact.py`)

`Inventory.get_inventory` walks the VM list; remote reads (the expanded
instance view, each network interface, each referenced public ip) are
modelled as data carried by the VM record: an interface is its fetched
record, and a public-ip reference carries the address the fetch would
return.  Any exception inside the walk is caught in `__init__`
(`except Exception: pass`) and the inventory accumulated so far is
printed, which the model expresses by returning the accumulated value
when the status-list access is out of range. -/

/-- A reference to a public ip, carrying the `ip_address` of the object
the builder would fetch for it. -/
structure PublicIpRef where
  ip_address : Option String
deriving DecidableEq

/-- One ip configuration of a network interface. -/
structure IpConfig where
  private_ip_address : Option String
  public_ip_address : Option PublicIpRef
deriving DecidableEq

/-- One (fetched) network interface. -/
structure NetworkInterface where
  primary : Bool
  ip_configurations : List IpConfig
deriving DecidableEq

/-- One virtual machine with its expanded instance view. -/
structure VMInfo where
  name : String
  location : String
  id : String
  statuses : List String
  network_interfaces : List NetworkInterface
deriving DecidableEq

/-- The `host_vars` dict built for one VM (`tags` is never consulted and
is omitted). -/
structure HostVars where
  location : String
  name : String
  id : String
  public_ip : Option String
  private_ip : Option String
deriving DecidableEq

/-- The emitted inventory document: `_meta.hostvars` (a dict whose keys
may be `None`) and the `azure_running` host list. -/
structure Inventory where
  hostvars : List (Option String × HostVars)
  azure_running : List (Option String)
deriving DecidableEq

/-- `dict(_meta=dict(hostvars=dict()), azure_running=[])`. -/
def emptyInventory : Inventory := { hostvars := [], azure_running := [] }

/-- Python dict assignment on the hostvars dict (`None` is a valid key). -/
def dictInsertHost (d : List (Option String × HostVars)) (k : Option String)
    (v : HostVars) : List (Option String × HostVars) :=
  match d with
  | [] => [(k, v)]
  | (k', v') :: rest =>
    if k' = k then (k, v) :: rest else (k', v') :: dictInsertHost rest k v

/-- Is `needle` a prefix of `hay`? -/
def pfxOf : List Char → List Char → Bool
  | [], _ => true
  | _ :: _, [] => false
  | a :: as, b :: bs => a = b && pfxOf as bs

/-- Does `needle` occur contiguously inside the list? -/
def infixOf (needle : List Char) : List Char → Bool
  | [] => needle.isEmpty
  | c :: rest => pfxOf needle (c :: rest) || infixOf needle rest

/-- Python `needle in hay` on strings: substring containment. -/
def pyInStr (needle hay : String) : Bool := infixOf needle.data hay.data

/-- The `host_vars` resolution loop of `get_inventory` (source lines
98-123): every primary interface's ip configurations are walked in order,
each one overwriting `private_ip` (even with `None`) and overwriting
`public_ip` only when a public-ip reference is attached. -/
def resolveVars (vm : VMInfo) : HostVars :=
  vm.network_interfaces.foldl
    (fun hv ni =>
      if ni.primary then
        ni.ip_configurations.foldl
          (fun hv cfg =>
            let hv' := { hv with private_ip := cfg.private_ip_address }
            match cfg.public_ip_address with
            | some ref => { hv' with public_ip := ref.ip_address }
            | none => hv')
          hv
      else hv)
    { location := vm.location, name := vm.name, id := vm.id,
      public_ip := none, private_ip := none }

/-- `Inventory._add_host` (source lines 87-93): the host key is the
public ip under `--public`, else the private ip, taken as-is (possibly
`None`); the host is then added to both structures unconditionally. -/
def hostKey (usePublic : Bool) (hv : HostVars) : Option String :=
  if usePublic then hv.public_ip else hv.private_ip

/-- Add one host to the inventory (`_add_host`). -/
def addHost (usePublic : Bool) (hv : HostVars) (inv : Inventory) : Inventory :=
  let k := hostKey usePublic hv
  { hostvars := dictInsertHost inv.hostvars k hv,
    azure_running := inv.azure_running ++ [k] }

/-- `get_inventory` over the VM list (source lines 95-124), with the
`statuses[1]` access: when the status list is too short the `IndexError`
aborts the walk, `__init__` swallows it, and the inventory built so far
is what gets printed. -/
def runInventory (usePublic : Bool) : List VMInfo → Inventory → Inventory
  | [], inv => inv
  | vm :: rest, inv =>
    match vm.statuses.get? 1 with
    | none => inv
    | some st =>
      if pyInStr "running" st then
        runInventory usePublic rest (addHost usePublic (resolveVars vm) inv)
      else
        runInventory usePublic rest inv

/-- The `"running" in statuses[1].display_status` test for a VM whose
status list is long enough. -/
def isRunningVM (vm : VMInfo) : Bool := pyInStr "running" (vm.statuses.getD 1 "")

/-- A running VM with a private address and no public ip attached. -/
def vmNoPub : VMInfo :=
  { name := "vm1", location := "loc1", id := "/subscriptions/S/vm1",
    statuses := ["ProvisioningState/succeeded", "VM running"],
    network_interfaces :=
      [{ primary := true,
         ip_configurations := [{ private_ip_address := some "10.0.0.4",
                                 public_ip_address := none }] }] }

/-- A stopped VM. -/
def vmStopped : VMInfo :=
  { name := "vm2", location := "loc1", id := "/subscriptions/S/vm2",
    statuses := ["ProvisioningState/succeeded", "VM deallocated"],
    network_interfaces :=
      [{ primary := true,
         ip_configurations := [{ private_ip_address := some "10.0.0.5",
                                 public_ip_address := none }] }] }

/-- A running VM with both addresses. -/
def vmBoth : VMInfo :=
  { name := "vm3", location := "loc1", id := "/subscriptions/S/vm3",
    statuses := ["ProvisioningState/succeeded", "VM running"],
    network_interfaces :=
      [{ primary := true,
         ip_configurations := [{ private_ip_address := some "10.0.0.6",
                                 public_ip_address :=
                                   some { ip_address := some "40.1.2.3" } }] }] }

end Inv

namespace LB

/-! ## Theorems -/

/-! ### Path decoder lemmas -/

theorem encodePath_data_aux (ps : List (String × String)) (acc : String) :
    (ps.foldl (fun acc kv => acc ++ "/" ++ kv.1 ++ "/" ++ kv.2) acc).data =
      acc.data ++ ps.flatMap (fun kv => '/' :: kv.1.data ++ '/' :: kv.2.data) := by
  induction ps generalizing acc with
  | nil => simp
  | cons kv rest ih =>
    simp only [List.foldl_cons, List.flatMap_cons, ih, String.data_append]
    simp

theorem encodePath_data (ps : List (String × String)) :
    (encodePath ps).data = ps.flatMap (fun kv => '/' :: kv.1.data ++ '/' :: kv.2.data) := by
  simpa using encodePath_data_aux ps ""

theorem flatMap_eq_cons_joined (ps : List (String × String)) (h : ps ≠ []) :
    ps.flatMap (fun kv => '/' :: kv.1.data ++ '/' :: kv.2.data) =
      '/' :: joined (segsOf ps) := by
  induction ps with
  | nil => exact absurd rfl h
  | cons kv rest ih =>
    cases rest with
    | nil => simp [segsOf, joined]
    | cons kv' rest' =>
      have ih' := ih (by simp)
      simp only [List.flatMap_cons] at ih' ⊢
      rw [ih']
      have hseg : segsOf (kv' :: rest') = kv'.1.data :: kv'.2.data :: segsOf rest' := by
        simp [segsOf]
      have hmain : segsOf ((kv :: kv' :: rest')) = kv.1.data :: kv.2.data :: segsOf (kv' :: rest') := by
        simp [segsOf]
      rw [hmain, hseg]
      simp only [joined]
      simp


theorem joined_ne_nil {segs : List (List Char)} (hg : goodSegs segs) (h : segs ≠ []) :
    joined segs ≠ [] := by
  cases segs with
  | nil => exact absurd rfl h
  | cons s rest =>
    cases rest with
    | nil =>
      exact (hg s (by simp)).1
    | cons s' rest' =>
      simp only [joined]
      have := (hg s (by simp)).1
      simp [this]

theorem getLast?_joined {segs : List (List Char)} (hg : goodSegs segs) (h : segs ≠ [])
    {c : Char} (hc : (joined segs).getLast? = some c) : c ≠ '/' := by
  induction segs with
  | nil => exact absurd rfl h
  | cons s rest ih =>
    cases rest with
    | nil =>
      simp only [joined] at hc
      have hs := hg s (by simp)
      rcases List.mem_getLast?_eq_getLast (show c ∈ s.getLast? by simp [hc]) with ⟨hne, hcc⟩
      intro hslash
      apply hs.2
      have hmem : s.getLast hne ∈ s := List.getLast_mem hne
      rw [← hcc] at hmem
      rw [← hslash]
      exact hmem
    | cons s' rest' =>
      simp only [joined] at hc
      have hrest : goodSegs (s' :: rest') := fun x hx => hg x (by simp [hx])
      have hjn : joined (s' :: rest') ≠ [] := joined_ne_nil hrest (by simp)
      have hne2 : '/' :: joined (s' :: rest') ≠ [] := by simp
      have heq2 : (s ++ '/' :: joined (s' :: rest')).getLast? =
          ('/' :: joined (s' :: rest')).getLast? :=
        List.getLast?_append_of_ne_nil s hne2
      have hsplit : '/' :: joined (s' :: rest') = ['/'] ++ joined (s' :: rest') := rfl
      have heq3 : (['/'] ++ joined (s' :: rest')).getLast? =
          (joined (s' :: rest')).getLast? :=
        List.getLast?_append_of_ne_nil ['/'] hjn
      rw [heq2, hsplit, heq3] at hc
      exact ih hrest (by simp) hc

theorem head_joined {s : List Char} (segs : List (List Char))
    (hs : s ≠ []) : ∃ c cs, joined (s :: segs) = c :: cs ∧ c ∈ s ∧ (∀ x ∈ cs, True) := by
  cases s with
  | nil => exact absurd rfl hs
  | cons c cs =>
    cases segs with
    | nil => exact ⟨c, cs, by simp [joined], by simp, fun _ _ => trivial⟩
    | cons s' rest =>
      exact ⟨c, cs ++ '/' :: joined (s' :: rest), by simp [joined], by simp, fun _ _ => trivial⟩

theorem pyStrip_slash_joined {segs : List (List Char)} (hg : goodSegs segs) (h : segs ≠ []) :
    pyStrip ('/' :: joined segs) = joined segs := by
  cases segs with
  | nil => exact absurd rfl h
  | cons s rest =>
    have hs := hg s (by simp)
    obtain ⟨c, cs, hj, hcmem, -⟩ := head_joined rest hs.1
    have hcslash : ¬ (c = '/') := fun hc => hs.2 (hc ▸ hcmem)
    have hlast : ∀ d, (c :: cs).getLast? = some d → d ≠ '/' := by
      intro d hd
      apply getLast?_joined hg (by simp)
      rw [hj]
      exact hd
    unfold pyStrip
    rw [hj]
    have h1 : List.dropWhile (fun x => x = '/') ('/' :: c :: cs) = c :: cs := by
      rw [List.dropWhile_cons, if_pos (by simp), List.dropWhile_cons, if_neg (by simp [hcslash])]
    rw [h1]
    cases hrev : (c :: cs).reverse with
    | nil => simp at hrev
    | cons d ds =>
      have hd : (c :: cs).getLast? = some d := by
        rw [← List.head?_reverse, hrev]
        rfl
      have hdne : ¬ (d = '/') := hlast d hd
      rw [List.dropWhile_cons, if_neg (by simp [hdne]), ← hrev, List.reverse_reverse]

theorem pySplit_append {k : List Char} (hk : '/' ∉ k) (rest : List Char) :
    pySplit (k ++ '/' :: rest) = k :: pySplit rest := by
  induction k with
  | nil => simp [pySplit]
  | cons c cs ih =>
    have hc : ¬ (c = '/') := fun hc => hk (by simp [hc])
    have hcs : '/' ∉ cs := fun hx => hk (by simp [hx])
    have ih' := ih hcs
    show pySplit (c :: (cs ++ '/' :: rest)) = (c :: cs) :: pySplit rest
    rw [pySplit, if_neg hc, ih']

theorem pySplit_no_slash {k : List Char} (hk : '/' ∉ k) : pySplit k = [k] := by
  induction k with
  | nil => rfl
  | cons c cs ih =>
    have hc : ¬ (c = '/') := fun hc => hk (by simp [hc])
    have hcs : '/' ∉ cs := fun hx => hk (by simp [hx])
    rw [pySplit, if_neg hc, ih hcs]

theorem pySplit_joined {segs : List (List Char)} (hg : goodSegs segs) (h : segs ≠ []) :
    pySplit (joined segs) = segs := by
  induction segs with
  | nil => exact absurd rfl h
  | cons s rest ih =>
    cases rest with
    | nil => exact pySplit_no_slash (hg s (by simp)).2
    | cons s' rest' =>
      simp only [joined]
      rw [pySplit_append (hg s (by simp)).2]
      rw [ih (fun x hx => hg x (by simp [hx])) (by simp)]

theorem data_eq_nil {s : String} (h : s.data = []) : s = "" := by
  cases s with
  | mk l =>
    cases h
    rfl

theorem goodSegs_segsOf {ps : List (String × String)}
    (hg : ∀ kv ∈ ps, goodSeg kv.1 ∧ goodSeg kv.2) : goodSegs (segsOf ps) := by
  intro s hs
  simp only [segsOf, List.mem_flatMap] at hs
  obtain ⟨kv, hkv, hmem⟩ := hs
  have hkv' := hg kv hkv
  simp only [List.mem_cons, List.mem_singleton, List.not_mem_nil, or_false] at hmem
  rcases hmem with h1 | h1
  · subst h1
    exact ⟨fun hd => hkv'.1.1 (data_eq_nil hd), hkv'.1.2⟩
  · subst h1
    exact ⟨fun hd => hkv'.2.1 (data_eq_nil hd), hkv'.2.2⟩

theorem azurePairs_segsOf (ps : List (String × String)) :
    azurePairs ((segsOf ps).map (fun l => String.mk l)) = ps := by
  induction ps with
  | nil => rfl
  | cons kv rest ih =>
    have hseg : segsOf (kv :: rest) = kv.1.data :: kv.2.data :: segsOf rest := by
      simp [segsOf]
    rw [hseg, List.map_cons, List.map_cons, azurePairs, ih]

theorem dictInsert_fresh {α : Type} (d : List (String × α)) (k : String) (v : α)
    (h : k ∉ d.map Prod.fst) : dictInsert d k v = d ++ [(k, v)] := by
  induction d with
  | nil => rfl
  | cons kv rest ih =>
    have hne : ¬ (kv.1 = k) := fun he => h (by simp [he])
    simp only [dictInsert, if_neg hne, List.cons_append, List.cons.injEq, true_and]
    exact ih (fun hm => h (by simp [hm]))

theorem dictBuild_aux {α : Type} :
    ∀ (ps acc : List (String × α)), (ps.map Prod.fst).Nodup →
      (∀ k ∈ ps.map Prod.fst, k ∉ acc.map Prod.fst) →
      ps.foldl (fun d kv => dictInsert d kv.1 kv.2) acc = acc ++ ps
  | [], acc, _, _ => by simp
  | kv :: rest, acc, hnd, hdisj => by
    simp only [List.map_cons, List.nodup_cons] at hnd
    simp only [List.foldl_cons]
    rw [dictInsert_fresh acc kv.1 kv.2 (hdisj kv.1 (by simp))]
    rw [dictBuild_aux rest (acc ++ [(kv.1, kv.2)]) hnd.2 ?_]
    · simp
    · intro k hk
      simp only [List.map_append, List.mem_append] at *
      rintro (h1 | h1)
      · exact hdisj k (by simp [hk]) h1
      · have hk1 : k = kv.1 := by simpa using h1
        exact hnd.1 (hk1 ▸ hk)

theorem dictBuild_nodup {α : Type} (ps : List (String × α))
    (hnd : (ps.map Prod.fst).Nodup) : dictBuild ps = ps := by
  simpa using dictBuild_aux ps [] hnd (by simp)

/-- Decoding an encoded alternating path recovers exactly its pieces. -/
theorem azureid_to_dict_encodePath (ps : List (String × String)) (hne : ps ≠ [])
    (hg : ∀ kv ∈ ps, goodSeg kv.1 ∧ goodSeg kv.2)
    (hnd : (ps.map Prod.fst).Nodup) :
    azureid_to_dict (encodePath ps) = ps := by
  have hgs : goodSegs (segsOf ps) := goodSegs_segsOf hg
  have hsne : segsOf ps ≠ [] := by
    cases ps with
    | nil => exact absurd rfl hne
    | cons kv rest => simp [segsOf]
  unfold azureid_to_dict pyPieces
  rw [encodePath_data, flatMap_eq_cons_joined ps hne, pyStrip_slash_joined hgs hsne,
    pySplit_joined hgs hsne, azurePairs_segsOf, dictBuild_nodup ps hnd]

theorem refPairs_cons_cons (k v : String) (rest : List String) :
    refPairs (k :: v :: rest) = (k, v) :: refPairs rest := by
  unfold refPairs
  have e1 : (k :: v :: rest).length = rest.length + 1 + 1 := by simp
  rw [e1, List.range_succ_eq_map, List.range_succ_eq_map, List.map_cons]
  set f := fun i : Nat =>
    if i < rest.length + 1 + 1 - 1 ∧ i % 2 = 0 then
      some ((k :: v :: rest).getD i "", (k :: v :: rest).getD (i + 1) "")
    else none with hfdef
  have hf0 : f 0 = some (k, v) := by
    show (if (0 : Nat) < rest.length + 1 + 1 - 1 ∧ (0 : Nat) % 2 = 0 then
      some ((k :: v :: rest).getD 0 "", (k :: v :: rest).getD (0 + 1) "")
    else none) = some (k, v)
    rw [if_pos (by omega)]
    rfl
  have hf1 : f (Nat.succ 0) = none := by
    show (if (Nat.succ 0) < rest.length + 1 + 1 - 1 ∧ (Nat.succ 0) % 2 = 0 then
      some ((k :: v :: rest).getD (Nat.succ 0) "", (k :: v :: rest).getD (Nat.succ 0 + 1) "")
    else none) = none
    rw [if_neg (by omega)]
  rw [List.filterMap_cons_some hf0, List.filterMap_cons_none hf1]
  congr 1
  rw [List.filterMap_map, List.filterMap_map]
  apply List.filterMap_congr
  intro i _
  show f (i + 1 + 1) = _
  show (if (i + 1 + 1) < rest.length + 1 + 1 - 1 ∧ (i + 1 + 1) % 2 = 0 then
      some ((k :: v :: rest).getD (i + 1 + 1) "", (k :: v :: rest).getD (i + 1 + 1 + 1) "")
    else none) = _
  by_cases hcond : i < rest.length - 1 ∧ i % 2 = 0
  · rw [if_pos (by omega), if_pos hcond]
    simp [List.getD_cons_succ]
  · rw [if_neg (by omega), if_neg hcond]

theorem refPairs_eq_azurePairs : ∀ l : List String, refPairs l = azurePairs l
  | [] => rfl
  | [k] => by
    unfold refPairs azurePairs
    simp [List.range_succ]
  | k :: v :: rest => by
    rw [refPairs_cons_cons, refPairs_eq_azurePairs rest]
    rfl

/-! ### Small facts about sorting and dicts -/

theorem insortStr_ne_nil (s : String) (l : List String) : insortStr s l ≠ [] := by
  cases l with
  | nil => simp [insortStr]
  | cons t ts =>
    simp only [insortStr]
    split <;> simp

theorem pySortStr_ne_nil {l : List String} (h : l ≠ []) : pySortStr l ≠ [] := by
  cases l with
  | nil => exact absurd rfl h
  | cons x xs => exact insortStr_ne_nil x (pySortStr xs)

theorem dictInsert_ne_nil {α : Type} (d : List (String × α)) (k : String) (v : α) :
    dictInsert d k v ≠ [] := by
  cases d with
  | nil => simp [dictInsert]
  | cons kv rest =>
    simp only [dictInsert]
    split <;> simp

theorem foldl_dictInsert_ne_nil {α : Type} :
    ∀ (l : List α) (key : α → String) (acc : List (String × α)), acc ≠ [] →
      l.foldl (fun d x => dictInsert d (key x) x) acc ≠ []
  | [], _, acc, h => h
  | x :: xs, key, acc, _ => by
    simp only [List.foldl_cons]
    exact foldl_dictInsert_ne_nil xs key _ (dictInsert_ne_nil acc (key x) x)

theorem list_to_dict_ne_nil {α : Type} {l : List α} (key : α → String)
    (h : l ≠ []) : list_to_dict l key ≠ [] := by
  cases l with
  | nil => exact absurd rfl h
  | cons x xs =>
    unfold list_to_dict
    simp only [List.foldl_cons]
    exact foldl_dictInsert_ne_nil xs key _ (dictInsert_ne_nil [] (key x) x)

/-! ### Reduction facts for the `Except` monad and the comparator -/

theorem bindE_ok {α β : Type} (a : α) (f : α → Except CmpErr β) :
    (Except.ok a >>= f) = f a := rfl

theorem bindE_error {α β : Type} (e : CmpErr) (f : α → Except CmpErr β) :
    ((Except.error e : Except CmpErr α) >>= f) = Except.error e := rfl

theorem throwE {α : Type} (e : CmpErr) :
    (throw e : Except CmpErr α) = Except.error e := rfl

theorem pureE {α : Type} (a : α) : (pure a : Except CmpErr α) = Except.ok a := rfl

theorem dictGet_error {α : Type} {d : List (String × α)} {k : String} {e : CmpErr}
    (h : dictGet d k = Except.error e) : e = CmpErr.keyError := by
  unfold dictGet at h
  cases hf : dictFind d k <;> rw [hf] at h <;> simp_all

theorem privateIpCheck_shapes (d a al : Option String) :
    privateIpCheck d a al = Except.ok () ∨
    privateIpCheck d a al = Except.error (CmpErr.diff DiffReason.frontPrivateIp) ∨
    privateIpCheck d a al = Except.error (CmpErr.diff DiffReason.frontPrivateIpDynamic) := by
  unfold privateIpCheck
  split
  · split
    · right; left; rfl
    · left; rfl
  · split
    · right; right; rfl
    · left; rfl

/-! ### Claim theorems for the path decoders -/

/-- C7: for every slash-delimited resource path of alternating
(segment-type, segment-name) pairs — each segment nonempty, slash-free,
with distinct segment types — `azureid_to_dict` returns the mapping from
each segment-type to the segment-name that follows it. -/
theorem c7_path_decode (ps : List (String × String)) (hne : ps ≠ [])
    (hg : ∀ kv ∈ ps, goodSeg kv.1 ∧ goodSeg kv.2)
    (hnd : (ps.map Prod.fst).Nodup) :
    azureid_to_dict (encodePath ps) = ps :=
  azureid_to_dict_encodePath ps hne hg hnd

/-- Witness for C7 at the claim's example path
`/subscriptions/S/resourceGroups/R/.../frontendIPConfigurations/F`. -/
theorem c7_path_decode_witness :
    (([("subscriptions", "S"), ("resourceGroups", "R"),
       ("frontendIPConfigurations", "F")] : List (String × String)) ≠ [] ∧
     (∀ kv ∈ ([("subscriptions", "S"), ("resourceGroups", "R"),
       ("frontendIPConfigurations", "F")] : List (String × String)),
        goodSeg kv.1 ∧ goodSeg kv.2) ∧
     (([("subscriptions", "S"), ("resourceGroups", "R"),
       ("frontendIPConfigurations", "F")] : List (String × String)).map
         Prod.fst).Nodup) ∧
    azureid_to_dict (encodePath [("subscriptions", "S"), ("resourceGroups", "R"),
      ("frontendIPConfigurations", "F")]) =
      [("subscriptions", "S"), ("resourceGroups", "R"),
       ("frontendIPConfigurations", "F")] :=
  ⟨⟨by decide, by decide, by decide⟩,
    c7_path_decode _ (by decide) (by decide) (by decide)⟩

/-- C9: `azureid_to_dict` (reconciler) and `_parse_ref_id` (inventory)
compute the same function on every input string. -/
theorem c9_decoders_equal (s : String) : azureid_to_dict s = parse_ref_id s := by
  unfold azureid_to_dict parse_ref_id
  rw [refPairs_eq_azurePairs]

/-! ### Claim theorems for single comparison blocks -/

/-- C5: the frontend private-ip comparison reports no mismatch exactly
when a supplied address matches the actual address with `Static`
allocation, and an omitted address meets `Dynamic` allocation; every
other combination is a mismatch. -/
theorem c5_private_ip_check (desired actualIp alloc : Option String) :
    privateIpCheck desired actualIp alloc = Except.ok () ↔
      (if pyTruthyS desired then
        actualIp = some (desired.getD "") ∧ alloc = some "Static"
      else alloc = some "Dynamic") := by
  unfold privateIpCheck
  by_cases hd : pyTruthyS desired
  · simp only [hd, if_true]
    by_cases hb : (pyStrNeOpt (desired.getD "") actualIp || pyOptNeStr alloc "Static") = true
    · rw [if_pos hb]
      simp only [Bool.or_eq_true] at hb
      constructor
      · intro h
        exact absurd h (by simp)
      · rintro ⟨h1, h2⟩
        subst h1
        subst h2
        rcases hb with hb | hb
        · simp [pyStrNeOpt] at hb
        · simp [pyOptNeStr] at hb
    · rw [if_neg hb]
      simp only [Bool.or_eq_true, not_or] at hb
      obtain ⟨h1, h2⟩ := hb
      constructor
      · intro _
        constructor
        · cases actualIp with
          | none => simp [pyStrNeOpt] at h1
          | some a2 =>
            simp [pyStrNeOpt] at h1
            simp [h1]
        · cases alloc with
          | none => simp [pyOptNeStr] at h2
          | some al =>
            simp [pyOptNeStr] at h2
            simp [h2]
      · intro _
        rfl
  · simp only [hd, if_false, Bool.false_eq_true]
    by_cases hb : pyOptNeStr alloc "Dynamic" = true
    · rw [if_pos hb]
      constructor
      · intro h
        exact absurd h (by simp)
      · intro h2
        subst h2
        simp [pyOptNeStr] at hb
    · rw [if_neg hb]
      constructor
      · intro _
        cases alloc with
        | none => simp [pyOptNeStr] at hb
        | some al =>
          simp [pyOptNeStr] at hb
          simp [hb]
      · intro _
        rfl

/-- C10: a load-balancing rule whose desired `enable_floating_ip` is
false — omitted, or an explicit false — is never compared on that field:
the check can only fire when the desired value normalized to `True`, so
an actual `True` against a desired false passes silently. -/
theorem c10_efi_false_skipped (raw : Option String) (a : Option Bool) :
    normalizeEfi none = false ∧
    normalizeEfi (some "false") = false ∧
    efiCheck false a = Except.ok () ∧
    (efiCheck (normalizeEfi raw) a ≠ Except.ok () → normalizeEfi raw = true) := by
  refine ⟨rfl, rfl, rfl, ?_⟩
  intro h
  cases he : normalizeEfi raw with
  | true => rfl
  | false =>
    exact absurd (by rw [he]; rfl) h

/-- Witness for C10: an omitted raw value against an actual `True`. -/
theorem c10_efi_false_skipped_witness :
    normalizeEfi none = false ∧
    normalizeEfi (some "false") = false ∧
    efiCheck false (some true) = Except.ok () ∧
    (efiCheck (normalizeEfi none) (some true) ≠ Except.ok () →
      normalizeEfi none = true) :=
  c10_efi_false_skipped none (some true)

/-- C6: comparison-time structural errors — a missing dictionary key or
an index error — make the run report `changed` instead of propagating:
whenever the comparison ends in `KeyError` or `IndexError` the phase
result is `changed`, and the only exception that can escape the phase is
a `TypeError`. -/
theorem c6_structural_errors_changed (v : Validated) (lb : LBState) :
    (compareAll v lb = Except.error CmpErr.keyError ∨
      compareAll v lb = Except.error CmpErr.indexError →
      comparePhase v (some lb) = PhaseResult.changed) ∧
    (∀ e, comparePhase v (some lb) = PhaseResult.crashed e →
      e = CmpErr.typeError) := by
  constructor
  · rintro (h | h) <;> simp [comparePhase, h]
  · intro e he
    cases hc : compareAll v lb with
    | ok u =>
      simp [comparePhase, hc] at he
    | error er =>
      cases er <;> simp_all [comparePhase]

/-- Witness for C6: a desired frontend name absent from the actual state
is a `KeyError`, and the phase reports `changed`. -/
theorem c6_structural_errors_changed_witness :
    (compareAll vKeyErr lbEmpty = Except.error CmpErr.keyError ∨
      compareAll vKeyErr lbEmpty = Except.error CmpErr.indexError) ∧
    comparePhase vKeyErr (some lbEmpty) = PhaseResult.changed :=
  ⟨Or.inl rfl,
    (c6_structural_errors_changed vKeyErr lbEmpty).1 (Or.inl rfl)⟩

/-! ### Claim theorems for the backend pool comparison -/

/-- Counterexample for C2: desired pools `["a", "b"]` against actual pool
names `["a", "c"]` — the sorted name lists differ, yet the comparator
reports no mismatch, because only the first elements are compared. -/
theorem c2_backend_counterexample :
    compareBackends ["a", "b"]
      [({ name := "a" } : PoolState), { name := "c" }] = Except.ok () ∧
    pySortStr ["a", "b"] ≠
      pySortStr ((list_to_dict
        ([{ name := "a" }, { name := "c" }] : List PoolState)
        (fun p => p.name)).map Prod.fst) := by
  exact ⟨rfl, by decide⟩

/-- C2 (amended): with a nonempty desired pool list and a nonempty actual
pool list, the backend category passes exactly when the FIRST elements of
the two sorted name lists agree — sorted-list equality is not required. -/
theorem c2_backend_head_only (pools : List String) (actualPools : List PoolState)
    (hne : pools ≠ []) (hae : actualPools ≠ []) :
    compareBackends pools actualPools = Except.ok () ↔
      (pySortStr ((list_to_dict actualPools (fun p => p.name)).map Prod.fst)).head? =
        (pySortStr pools).head? := by
  unfold compareBackends
  rw [if_neg (by simpa using hne)]
  have h1 : pySortStr ((list_to_dict actualPools (fun p => p.name)).map Prod.fst) ≠ [] :=
    pySortStr_ne_nil (by
      simpa using list_to_dict_ne_nil (fun p : PoolState => p.name) hae)
  have h2 : pySortStr pools ≠ [] := pySortStr_ne_nil hne
  cases e1 : pySortStr ((list_to_dict actualPools (fun p => p.name)).map Prod.fst) with
  | nil => exact absurd e1 h1
  | cons r0 rs =>
    cases e2 : pySortStr pools with
    | nil => exact absurd e2 h2
    | cons p0 ps' =>
      simp only [e1, e2, List.head?_cons]
      by_cases hrp : r0 = p0
      · simp [hrp]
      · simp [hrp]

/-- Witness for C2 (amended): `["b", "a"]` against actual names
`["a", "b"]` — sorted heads agree, no mismatch. -/
theorem c2_backend_head_only_witness :
    ((["b", "a"] : List String) ≠ [] ∧
      ([({ name := "a" } : PoolState), { name := "b" }] : List PoolState) ≠ []) ∧
    (compareBackends ["b", "a"] [({ name := "a" } : PoolState), { name := "b" }] =
        Except.ok () ↔
      (pySortStr ((list_to_dict
          ([{ name := "a" }, { name := "b" }] : List PoolState)
          (fun p => p.name)).map Prod.fst)).head? =
        (pySortStr ["b", "a"]).head?) :=
  ⟨⟨by decide, by decide⟩,
    c2_backend_head_only ["b", "a"] [{ name := "a" }, { name := "b" }]
      (by decide) (by decide)⟩

/-! ### Claim theorems: duplicate names and omitted fields (counterexamples) -/

/-- Counterexample for C3: a spec with a duplicate frontend name fails
validation, but only after the resource group has been fetched from the
provider — the trace of the failing run already contains a network call. -/
theorem c3_duplicate_name_counterexample :
    ¬ (dDup.frontend_ip_configs.map (fun f => f.name)).Nodup ∧
    execPresent dDup { resource_group_exists := true, lb := none } =
      ([NetCall.getResourceGroup],
        ExecOutcome.failed
          "name is not provided correctly in one of frontend_ip_configs.") ∧
    NetCall.getResourceGroup ∈
      (execPresent dDup { resource_group_exists := true, lb := none }).1 :=
  ⟨by decide, rfl, by decide⟩

/-- Counterexample for C4: the desired probe omits its port; validation
fills in the default 80, the comparator then compares 80 against the
actual port 8080 and reports the mismatch — an omitted field produced a
mismatch by itself (every other field of the actual state matches its
default). -/
theorem c4_omitted_field_counterexample :
    pOmit.port = none ∧
    validate dOmit = Except.ok vOmit ∧
    compareAll vOmit lbOmit = Except.error (CmpErr.diff DiffReason.probePort) ∧
    execPresent dOmit { resource_group_exists := true, lb := some lbOmit } =
      ([NetCall.getResourceGroup, NetCall.getLoadBalancer, NetCall.createOrUpdate],
        ExecOutcome.ok true) :=
  ⟨rfl, rfl, rfl, rfl⟩

/-- C4 (amended): only omitted fields that receive no validation-time
default are exempt from comparison.  A frontend whose `subnet_name` and
`vnet_name` are omitted (no defaults exist for them) can never produce
the subnet-name or vnet-name mismatch, whatever the actual state; fields
with documented defaults (such as a probe's port) are compared at their
default value, as the counterexample shows, and an omitted
`private_ip_address` still demands `Dynamic` allocation. -/
theorem c4_omitted_no_default_not_compared (rfs : List (String × FrontState))
    (f : FrontV) (hsn : pyTruthyS f.subnet_name = false)
    (hvn : pyTruthyS f.vnet_name = false) :
    compareFront rfs f ≠ Except.error (CmpErr.diff DiffReason.frontSubnetName) ∧
    compareFront rfs f ≠ Except.error (CmpErr.diff DiffReason.frontVnetName) := by
  unfold compareFront
  cases hget : dictGet rfs f.name with
  | error e =>
    have he := dictGet_error hget
    subst he
    simp [bindE_error]
  | ok rf =>
    simp only [bindE_ok]
    cases hsub : rf.subnet with
    | none => simp [bindE_error]
    | some sn =>
      simp only [bindE_ok]
      by_cases hpub : pyTruthyS f.public_ip_name
      · simp [hpub, throwE, bindE_error]
      · simp only [hpub, Bool.false_eq_true, if_false, hsn, hvn, throwE, pureE,
          bindE_ok]
        rcases privateIpCheck_shapes f.private_ip_address rf.private_ip_address
          rf.private_ip_allocation_method with h | h | h <;>
          simp only [h, bindE_error, bindE_ok] <;> try simp
        by_cases hrg : f.resource_group = ""
        · simp [hrg, pureE]
        · simp only [if_neg hrg, bindE_ok]
          cases hv : dictGet (azureid_to_dict sn.id) "resourceGroups" with
          | error e2 =>
            have he2 := dictGet_error hv
            subst he2
            simp [bindE_error]
          | ok vv =>
            simp only [bindE_ok]
            by_cases hne2 : f.resource_group = vv
            · simp [hne2, pureE]
            · simp [hne2, throwE]

/-- Witness for C4 (amended): a frontend with `subnet_name` and
`vnet_name` omitted, against an actual state with no frontends. -/
theorem c4_omitted_no_default_not_compared_witness :
    (pyTruthyS fvOnlyPub.subnet_name = false ∧
      pyTruthyS fvOnlyPub.vnet_name = false) ∧
    (compareFront [] fvOnlyPub ≠
        Except.error (CmpErr.diff DiffReason.frontSubnetName) ∧
      compareFront [] fvOnlyPub ≠
        Except.error (CmpErr.diff DiffReason.frontVnetName)) :=
  ⟨⟨rfl, rfl⟩, c4_omitted_no_default_not_compared [] fvOnlyPub rfl rfl⟩

end LB

namespace Inv

/-! ### Claim theorems for the inventory builder -/

theorem runInventory_azure_running (usePublic : Bool) :
    ∀ (vms : List VMInfo) (inv : Inventory),
      (∀ vm ∈ vms, 2 ≤ vm.statuses.length) →
      (runInventory usePublic vms inv).azure_running =
        inv.azure_running ++
          (vms.filter isRunningVM).map (fun vm => hostKey usePublic (resolveVars vm))
  | [], inv, _ => by simp [runInventory]
  | vm :: rest, inv, hst => by
    have hlen : 2 ≤ vm.statuses.length := hst vm (by simp)
    have hget : vm.statuses.get? 1 = some (vm.statuses.getD 1 "") := by
      have h1 : 1 < vm.statuses.length := by omega
      rw [List.get?_eq_getElem?, List.getD_eq_getElem?_getD,
        List.getElem?_eq_getElem h1]
      rfl
    have hrest : ∀ v ∈ rest, 2 ≤ v.statuses.length := fun v hv => hst v (by simp [hv])
    unfold runInventory
    rw [hget]
    dsimp only
    by_cases hrun : pyInStr "running" (vm.statuses.getD 1 "") = true
    · rw [if_pos hrun]
      rw [runInventory_azure_running usePublic rest _ hrest]
      have hrun2 : isRunningVM vm = true := by
        unfold isRunningVM
        exact hrun
      have hf : (vm :: rest).filter isRunningVM = vm :: rest.filter isRunningVM := by
        simp [List.filter_cons, hrun2]
      rw [hf]
      simp [addHost]
    · rw [if_neg hrun]
      rw [runInventory_azure_running usePublic rest _ hrest]
      have hrun2 : isRunningVM vm = false := by
        unfold isRunningVM
        simpa using hrun
      have hf : (vm :: rest).filter isRunningVM = rest.filter isRunningVM := by
        simp [List.filter_cons, hrun2]
      rw [hf]

/-- Counterexample for C8: a running VM whose chosen address is absent
(`--public` set, no public ip) is not omitted — it is added to both the
host list and the hostvars mapping under a `None` key. -/
theorem c8_missing_address_counterexample :
    isRunningVM vmNoPub = true ∧
    hostKey true (resolveVars vmNoPub) = none ∧
    (runInventory true [vmNoPub] emptyInventory).azure_running = [none] ∧
    (runInventory true [vmNoPub] emptyInventory).hostvars.map Prod.fst = [none] :=
  ⟨rfl, rfl, rfl, rfl⟩

/-- C8 (amended): for VM lists whose status lists are long enough, the
emitted host list contains exactly one entry per running VM, keyed by the
public ip when `--public` is set and the private ip otherwise; a VM whose
chosen address is absent contributes a `None` entry instead of being
omitted. -/
theorem c8_host_key_selection (usePublic : Bool) (vms : List VMInfo)
    (hst : ∀ vm ∈ vms, 2 ≤ vm.statuses.length) :
    (runInventory usePublic vms emptyInventory).azure_running =
      (vms.filter isRunningVM).map (fun vm => hostKey usePublic (resolveVars vm)) := by
  have h := runInventory_azure_running usePublic vms emptyInventory hst
  simpa [emptyInventory] using h

/-- Witness for C8 (amended): three VMs, one stopped; under the private
key the host list has the two running VMs' private addresses. -/
theorem c8_host_key_selection_witness :
    (∀ vm ∈ [vmNoPub, vmStopped, vmBoth], 2 ≤ vm.statuses.length) ∧
    (runInventory false [vmNoPub, vmStopped, vmBoth] emptyInventory).azure_running =
      (([vmNoPub, vmStopped, vmBoth].filter isRunningVM).map
        (fun vm => hostKey false (resolveVars vm))) ∧
    (runInventory false [vmNoPub, vmStopped, vmBoth] emptyInventory).azure_running =
      [some "10.0.0.4", some "10.0.0.6"] :=
  ⟨by decide, c8_host_key_selection false [vmNoPub, vmStopped, vmBoth] (by decide),
    rfl⟩

end Inv

namespace LB

theorem validateFronts_ok {rg : String} :
    ∀ {fs : List FrontParam} {seen : List String} {l : List FrontV},
      validateFronts rg seen fs = Except.ok l →
      (∀ fv ∈ l, fv.name ∉ seen) ∧
      (l.map (fun fv => fv.name)).Nodup ∧
      fs.map (fun f => f.name) = l.map (fun fv => some fv.name) ∧
      (∀ fv ∈ l, pyTruthyS fv.public_ip_name ∨
        (pyTruthyS fv.subnet_name ∧ pyTruthyS fv.vnet_name))
  | [], seen, l, h => by
    unfold validateFronts at h
    cases h
    simp
  | f :: fs, seen, l, h => by
    unfold validateFronts at h
    cases hn : f.name with
    | none =>
      rw [hn] at h
      exact absurd h (by simp)
    | some n =>
      rw [hn] at h
      dsimp only at h
      by_cases h1 : n = "" ∨ n ∈ seen
      · rw [if_pos h1] at h
        exact absurd h (by simp)
      · rw [if_neg h1] at h
        by_cases h2 : ¬ pyTruthyS f.public_ip_name ∧
            ¬ (pyTruthyS f.subnet_name ∧ pyTruthyS f.vnet_name)
        · rw [if_pos h2] at h
          exact absurd h (by simp)
        · rw [if_neg h2] at h
          cases hrec : validateFronts rg (seen ++ [n]) fs with
          | error e =>
            rw [hrec] at h
            exact absurd h (by simp [Bind.bind, Except.bind])
          | ok rest =>
            rw [hrec] at h
            simp only [Bind.bind, Except.bind] at h
            injection h with hl
            subst hl
            obtain ⟨ih1, ih2, ih3, ih4⟩ := validateFronts_ok hrec
            have hnseen : n ∉ seen := fun hc => h1 (Or.inr hc)
            refine ⟨?_, ?_, ?_, ?_⟩
            · intro fv hfv
              rcases List.mem_cons.mp hfv with hfv | hfv
              · rw [hfv]
                exact hnseen
              · intro hc
                exact ih1 fv hfv (by simp [hc])
            · rw [List.map_cons, List.nodup_cons]
              constructor
              · intro hc
                simp only [List.mem_map] at hc
                obtain ⟨fv, hfv, hname⟩ := hc
                exact ih1 fv hfv (by simp [hname])
              · exact ih2
            · simp only [List.map_cons, hn, ih3]
            · intro fv hfv
              rcases List.mem_cons.mp hfv with hfv | hfv
              · rw [hfv]
                simp only []
                rcases not_and_or.mp h2 with h3 | h3
                · left
                  simpa using h3
                · right
                  simpa using h3
              · exact ih4 fv hfv

theorem validateProbes_ok :
    ∀ {ps : List ProbeParam} {seen : List String} {l : List ProbeV},
      validateProbes seen ps = Except.ok l →
      (∀ pv ∈ l, pv.name ∉ seen) ∧
      (l.map (fun pv => pv.name)).Nodup ∧
      ps.map (fun p => p.name) = l.map (fun pv => some pv.name)
  | [], seen, l, h => by
    unfold validateProbes at h
    cases h
    simp
  | p :: ps, seen, l, h => by
    unfold validateProbes at h
    cases hn : p.name with
    | none =>
      rw [hn] at h
      exact absurd h (by simp)
    | some n =>
      rw [hn] at h
      dsimp only at h
      by_cases h1 : n = "" ∨ n ∈ seen
      · rw [if_pos h1] at h
        exact absurd h (by simp)
      · rw [if_neg h1] at h
        cases hrec : validateProbes (seen ++ [n]) ps with
        | error e =>
          rw [hrec] at h
          exact absurd h (by simp [Bind.bind, Except.bind])
        | ok rest =>
          rw [hrec] at h
          simp only [Bind.bind, Except.bind] at h
          injection h with hl
          subst hl
          obtain ⟨ih1, ih2, ih3⟩ := validateProbes_ok hrec
          have hnseen : n ∉ seen := fun hc => h1 (Or.inr hc)
          refine ⟨?_, ?_, ?_⟩
          · intro pv hpv
            rcases List.mem_cons.mp hpv with hpv | hpv
            · rw [hpv]
              exact hnseen
            · intro hc
              exact ih1 pv hpv (by simp [hc])
          · rw [List.map_cons, List.nodup_cons]
            constructor
            · intro hc
              simp only [List.mem_map] at hc
              obtain ⟨pv, hpv, hname⟩ := hc
              exact ih1 pv hpv (by simp [hname])
            · exact ih2
          · simp only [List.map_cons, hn, ih3]

theorem validateRules_ok {frontnames pools probenames : List String} :
    ∀ {rs : List RuleParam} {seen : List String} {l : List RuleV},
      validateRules frontnames pools probenames seen rs = Except.ok l →
      (∀ rv ∈ l, rv.name ∉ seen) ∧
      (l.map (fun rv => rv.name)).Nodup ∧
      rs.map (fun r => r.name) = l.map (fun rv => some rv.name)
  | [], seen, l, h => by
    unfold validateRules at h
    cases h
    simp
  | r :: rs, seen, l, h => by
    unfold validateRules at h
    cases hn : r.name with
    | none =>
      rw [hn] at h
      exact absurd h (by simp)
    | some n =>
      rw [hn] at h
      dsimp only at h
      by_cases h1 : n = "" ∨ n ∈ seen
      · rw [if_pos h1] at h
        exact absurd h (by simp)
      · rw [if_neg h1] at h
        by_cases h2 : ¬ pyTruthyS r.frontend_name ∨ r.frontend_name.getD "" ∉ frontnames
        · rw [if_pos h2] at h
          exact absurd h (by simp)
        · rw [if_neg h2] at h
          by_cases h3 : ¬ pyTruthyS r.backend_name ∨ r.backend_name.getD "" ∉ pools
          · rw [if_pos h3] at h
            exact absurd h (by simp)
          · rw [if_neg h3] at h
            by_cases h4 : ¬ pyTruthyS r.probe_name ∨ r.probe_name.getD "" ∉ probenames
            · rw [if_pos h4] at h
              exact absurd h (by simp)
            · rw [if_neg h4] at h
              cases hrec : validateRules frontnames pools probenames (seen ++ [n]) rs with
              | error e =>
                rw [hrec] at h
                exact absurd h (by simp [Bind.bind, Except.bind])
              | ok rest =>
                rw [hrec] at h
                simp only [Bind.bind, Except.bind] at h
                injection h with hl
                subst hl
                obtain ⟨ih1, ih2, ih3⟩ := validateRules_ok hrec
                have hnseen : n ∉ seen := fun hc => h1 (Or.inr hc)
                refine ⟨?_, ?_, ?_⟩
                · intro rv hrv
                  rcases List.mem_cons.mp hrv with hrv | hrv
                  · rw [hrv]
                    exact hnseen
                  · intro hc
                    exact ih1 rv hrv (by simp [hc])
                · rw [List.map_cons, List.nodup_cons]
                  constructor
                  · intro hc
                    simp only [List.mem_map] at hc
                    obtain ⟨rv, hrv, hname⟩ := hc
                    exact ih1 rv hrv (by simp [hname])
                  · exact ih2
                · simp only [List.map_cons, hn, ih3]

theorem validateNats_ok {frontnames : List String} :
    ∀ {ns : List NatParam} {seen : List String} {l : List NatRuleV},
      validateNats frontnames seen ns = Except.ok l →
      (∀ nv ∈ l, nv.name ∉ seen) ∧
      (l.map (fun nv => nv.name)).Nodup ∧
      ns.map (fun nt => nt.name) = l.map (fun nv => some nv.name)
  | [], seen, l, h => by
    unfold validateNats at h
    cases h
    simp
  | nt :: ns, seen, l, h => by
    unfold validateNats at h
    cases hn : nt.name with
    | none =>
      rw [hn] at h
      exact absurd h (by simp)
    | some n =>
      rw [hn] at h
      dsimp only at h
      by_cases h1 : n = "" ∨ n ∈ seen
      · rw [if_pos h1] at h
        exact absurd h (by simp)
      · rw [if_neg h1] at h
        by_cases h2 : ¬ pyTruthyS nt.frontend_name ∨ nt.frontend_name.getD "" ∉ frontnames
        · rw [if_pos h2] at h
          exact absurd h (by simp)
        · rw [if_neg h2] at h
          by_cases h3 : ¬ pyTruthyN nt.frontend_port
          · rw [if_pos h3] at h
            exact absurd h (by simp)
          · rw [if_neg h3] at h
            by_cases h4 : ¬ pyTruthyN nt.backend_port
            · rw [if_pos h4] at h
              exact absurd h (by simp)
            · rw [if_neg h4] at h
              cases hrec : validateNats frontnames (seen ++ [n]) ns with
              | error e =>
                rw [hrec] at h
                exact absurd h (by simp [Bind.bind, Except.bind])
              | ok rest =>
                rw [hrec] at h
                simp only [Bind.bind, Except.bind] at h
                injection h with hl
                subst hl
                obtain ⟨ih1, ih2, ih3⟩ := validateNats_ok hrec
                have hnseen : n ∉ seen := fun hc => h1 (Or.inr hc)
                refine ⟨?_, ?_, ?_⟩
                · intro nv hnv
                  rcases List.mem_cons.mp hnv with hnv | hnv
                  · rw [hnv]
                    exact hnseen
                  · intro hc
                    exact ih1 nv hnv (by simp [hc])
                · rw [List.map_cons, List.nodup_cons]
                  constructor
                  · intro hc
                    simp only [List.mem_map] at hc
                    obtain ⟨nv, hnv, hname⟩ := hc
                    exact ih1 nv hnv (by simp [hname])
                  · exact ih2
                · simp only [List.map_cons, hn, ih3]

theorem validate_ok {d : DesiredInput} {v : Validated} (h : validate d = Except.ok v) :
    (v.fronts.map (fun fv => fv.name)).Nodup ∧
    (v.probes.map (fun pv => pv.name)).Nodup ∧
    (v.rules.map (fun rv => rv.name)).Nodup ∧
    (v.nats.map (fun nv => nv.name)).Nodup ∧
    (∀ fv ∈ v.fronts, pyTruthyS fv.public_ip_name ∨
      (pyTruthyS fv.subnet_name ∧ pyTruthyS fv.vnet_name)) ∧
    d.frontend_ip_configs.map (fun f => f.name) = v.fronts.map (fun fv => some fv.name) ∧
    d.health_probes.map (fun p => p.name) = v.probes.map (fun pv => some pv.name) ∧
    d.load_balancing_rules.map (fun r => r.name) = v.rules.map (fun rv => some rv.name) ∧
    d.inbound_nat_rules.map (fun nt => nt.name) = v.nats.map (fun nv => some nv.name) ∧
    v.backend_pools = d.backend_pools := by
  unfold validate at h
  cases hf : validateFronts d.resource_group [] d.frontend_ip_configs with
  | error e =>
    rw [hf] at h
    exact absurd h (by simp [Bind.bind, Except.bind])
  | ok fronts =>
    rw [hf] at h
    simp only [Bind.bind, Except.bind] at h
    cases hp : validateProbes [] d.health_probes with
    | error e =>
      rw [hp] at h
      exact absurd h (by simp [Except.bind])
    | ok probes =>
      rw [hp] at h
      simp only [Except.bind] at h
      cases hr : validateRules (fronts.map (·.name)) d.backend_pools
          (probes.map (·.name)) [] d.load_balancing_rules with
      | error e =>
        rw [hr] at h
        exact absurd h (by simp [Except.bind])
      | ok rules =>
        rw [hr] at h
        simp only [Except.bind] at h
        cases hnat : validateNats (fronts.map (·.name)) [] d.inbound_nat_rules with
        | error e =>
          rw [hnat] at h
          exact absurd h (by simp [Except.bind])
        | ok nats =>
          rw [hnat] at h
          simp only [Except.bind] at h
          injection h with hv
          subst hv
          obtain ⟨-, hf2, hf3, hf4⟩ := validateFronts_ok hf
          obtain ⟨-, hp2, hp3⟩ := validateProbes_ok hp
          obtain ⟨-, hr2, hr3⟩ := validateRules_ok hr
          obtain ⟨-, hn2, hn3⟩ := validateNats_ok hnat
          exact ⟨hf2, hp2, hr2, hn2, hf4, hf3, hp3, hr3, hn3, rfl⟩

theorem string_eq_of_data {a b : String} (h : a.data = b.data) : a = b := by
  cases a
  cases b
  exact congrArg String.mk h

theorem nodup_some_map {α β : Type} {l : List α} {f : α → β}
    (h : (l.map f).Nodup) : (l.map (fun x => (some (f x) : Option β))).Nodup := by
  have he : l.map (fun x => (some (f x) : Option β)) = (l.map f).map some := by
    simp [List.map_map]
  rw [he]
  exact h.map (Option.some_injective _)

theorem dictFind_dictInsert_self {α : Type} (d : List (String × α)) (k : String) (v : α) :
    dictFind (dictInsert d k v) k = some v := by
  induction d with
  | nil => simp [dictInsert, dictFind]
  | cons kv rest ih =>
    by_cases hk : kv.1 = k
    · simp [dictInsert, hk, dictFind]
    · simp only [dictInsert, if_neg hk]
      simp [dictFind, hk, ih]

theorem dictFind_dictInsert_ne {α : Type} (d : List (String × α)) {k k' : String}
    (v : α) (h : k' ≠ k) : dictFind (dictInsert d k v) k' = dictFind d k' := by
  induction d with
  | nil =>
    simp only [dictInsert, dictFind]
    rw [if_neg (fun hc : k = k' => h hc.symm)]
  | cons kv rest ih =>
    by_cases hk : kv.1 = k
    · subst hk
      simp only [dictInsert, if_pos rfl]
      simp only [dictFind]
      rw [if_neg (fun hc : kv.1 = k' => h hc.symm),
        if_neg (fun hc : kv.1 = k' => h hc.symm)]
    · simp only [dictInsert, if_neg hk]
      simp only [dictFind]
      by_cases hk2 : kv.1 = k'
      · rw [if_pos hk2, if_pos hk2]
      · rw [if_neg hk2, if_neg hk2]
        exact ih

theorem dictFind_foldl_not_mem {α : Type} (key : α → String) :
    ∀ (L : List α) (acc : List (String × α)) (k : String), k ∉ L.map key →
      dictFind (L.foldl (fun d y => dictInsert d (key y) y) acc) k = dictFind acc k
  | [], acc, k, _ => rfl
  | y :: ys, acc, k, h => by
    simp only [List.foldl_cons]
    have hky : k ≠ key y := fun hc => h (by simp [hc])
    rw [dictFind_foldl_not_mem key ys _ k (fun hc => h (by simp [hc]))]
    exact dictFind_dictInsert_ne acc y hky

theorem dictFind_foldl_mem {α : Type} (key : α → String) :
    ∀ (L : List α) (acc : List (String × α)) (x : α), x ∈ L → (L.map key).Nodup →
      dictFind (L.foldl (fun d y => dictInsert d (key y) y) acc) (key x) = some x
  | [], _, x, hx, _ => absurd hx (by simp)
  | y :: ys, acc, x, hx, hnd => by
    simp only [List.map_cons, List.nodup_cons] at hnd
    simp only [List.foldl_cons]
    rcases List.mem_cons.mp hx with hx | hx
    · subst hx
      rw [dictFind_foldl_not_mem key ys _ (key x) hnd.1]
      exact dictFind_dictInsert_self acc (key x) x
    · exact dictFind_foldl_mem key ys _ x hx hnd.2

theorem dictGet_list_to_dict {α : Type} (key : α → String) (L : List α) (x : α)
    (hx : x ∈ L) (hnd : (L.map key).Nodup) :
    dictGet (list_to_dict L key) (key x) = Except.ok x := by
  unfold dictGet list_to_dict
  rw [dictFind_foldl_mem key L [] x hx hnd]

theorem keys_dictInsert_fresh {α : Type} (d : List (String × α)) (k : String) (v : α)
    (h : k ∉ d.map Prod.fst) :
    (dictInsert d k v).map Prod.fst = d.map Prod.fst ++ [k] := by
  rw [dictInsert_fresh d k v h]
  simp

theorem keys_foldl_dictInsert {α : Type} (key : α → String) :
    ∀ (L : List α) (acc : List (String × α)), (L.map key).Nodup →
      (∀ k ∈ L.map key, k ∉ acc.map Prod.fst) →
      (L.foldl (fun d y => dictInsert d (key y) y) acc).map Prod.fst =
        acc.map Prod.fst ++ L.map key
  | [], acc, _, _ => by simp
  | y :: ys, acc, hnd, hdisj => by
    simp only [List.map_cons, List.nodup_cons] at hnd
    simp only [List.foldl_cons]
    rw [keys_foldl_dictInsert key ys (dictInsert acc (key y) y) hnd.2 ?_]
    · rw [keys_dictInsert_fresh acc (key y) y (hdisj (key y) (by simp))]
      simp
    · intro k hk
      rw [keys_dictInsert_fresh acc (key y) y (hdisj (key y) (by simp))]
      simp only [List.mem_append, List.mem_singleton]
      rintro (hc | hc)
      · exact hdisj k (by simp [hk]) hc
      · subst hc
        exact hnd.1 hk

theorem keys_list_to_dict {α : Type} (key : α → String) (L : List α)
    (hnd : (L.map key).Nodup) :
    (list_to_dict L key).map Prod.fst = L.map key := by
  unfold list_to_dict
  rw [keys_foldl_dictInsert key L [] hnd (by simp)]
  simp

theorem forEachCheck_ok {α : Type} (f : α → Except CmpErr Unit) :
    ∀ l : List α, (∀ x ∈ l, f x = Except.ok ()) → forEachCheck f l = Except.ok ()
  | [], _ => rfl
  | x :: xs, h => by
    unfold forEachCheck
    rw [h x (by simp)]
    exact forEachCheck_ok f xs (fun y hy => h y (by simp [hy]))

theorem azureid_subnet_res_id (sub rg vn sn : String)
    (h1 : goodSeg sub) (h2 : goodSeg rg) (h3 : goodSeg vn) (h4 : goodSeg sn) :
    azureid_to_dict (subnet_res_id sub rg vn sn) =
      [("subscriptions", sub), ("resourceGroups", rg),
       ("providers", "Microsoft.Network"), ("virtualNetworks", vn),
       ("subnets", sn)] := by
  have heq : subnet_res_id sub rg vn sn =
      encodePath [("subscriptions", sub), ("resourceGroups", rg),
        ("providers", "Microsoft.Network"), ("virtualNetworks", vn),
        ("subnets", sn)] := by
    apply string_eq_of_data
    have e1 : ("/subscriptions/" : String).data =
        ("/" : String).data ++ ("subscriptions" : String).data ++ ("/" : String).data := by decide
    have e2 : ("/resourceGroups/" : String).data =
        ("/" : String).data ++ ("resourceGroups" : String).data ++ ("/" : String).data := by decide
    have e3 : ("/providers/Microsoft.Network/virtualNetworks/" : String).data =
        ("/" : String).data ++ ("providers" : String).data ++ ("/" : String).data ++
        ("Microsoft.Network" : String).data ++ ("/" : String).data ++
        ("virtualNetworks" : String).data ++ ("/" : String).data := by decide
    have e4 : ("/subnets/" : String).data =
        ("/" : String).data ++ ("subnets" : String).data ++ ("/" : String).data := by decide
    simp [subnet_res_id, encodePath, String.data_append, e1, e2, e3, e4]
  rw [heq]
  apply azureid_to_dict_encodePath
  · simp
  · intro kv hkv
    simp only [List.mem_cons, List.not_mem_nil, or_false] at hkv
    rcases hkv with h | h | h | h | h <;> subst h
    · exact ⟨show goodSeg "subscriptions" by decide, h1⟩
    · exact ⟨show goodSeg "resourceGroups" by decide, h2⟩
    · exact ⟨show goodSeg "providers" by decide,
        show goodSeg "Microsoft.Network" by decide⟩
    · exact ⟨show goodSeg "virtualNetworks" by decide, h3⟩
    · exact ⟨show goodSeg "subnets" by decide, h4⟩
  · simp only [List.map_cons, List.map_nil]
    decide

theorem azureid_frontend_id (sub rg lb nm : String)
    (h1 : goodSeg sub) (h2 : goodSeg rg) (h3 : goodSeg lb) (h4 : goodSeg nm) :
    azureid_to_dict (frontend_ip_configuration_id sub rg lb nm) =
      [("subscriptions", sub), ("resourceGroups", rg),
       ("providers", "Microsoft.Network"), ("loadBalancers", lb),
       ("frontendIPConfigurations", nm)] := by
  have heq : frontend_ip_configuration_id sub rg lb nm =
      encodePath [("subscriptions", sub), ("resourceGroups", rg),
        ("providers", "Microsoft.Network"), ("loadBalancers", lb),
        ("frontendIPConfigurations", nm)] := by
    apply string_eq_of_data
    have e1 : ("/subscriptions/" : String).data =
        ("/" : String).data ++ ("subscriptions" : String).data ++ ("/" : String).data := by decide
    have e2 : ("/resourceGroups/" : String).data =
        ("/" : String).data ++ ("resourceGroups" : String).data ++ ("/" : String).data := by decide
    have e3 : ("/providers/Microsoft.Network/loadBalancers/" : String).data =
        ("/" : String).data ++ ("providers" : String).data ++ ("/" : String).data ++
        ("Microsoft.Network" : String).data ++ ("/" : String).data ++
        ("loadBalancers" : String).data ++ ("/" : String).data := by decide
    have e4 : ("/frontendIPConfigurations/" : String).data =
        ("/" : String).data ++ ("frontendIPConfigurations" : String).data ++
        ("/" : String).data := by decide
    simp [frontend_ip_configuration_id, encodePath, String.data_append, e1, e2, e3, e4]
  rw [heq]
  apply azureid_to_dict_encodePath
  · simp
  · intro kv hkv
    simp only [List.mem_cons, List.not_mem_nil, or_false] at hkv
    rcases hkv with h | h | h | h | h <;> subst h
    · exact ⟨show goodSeg "subscriptions" by decide, h1⟩
    · exact ⟨show goodSeg "resourceGroups" by decide, h2⟩
    · exact ⟨show goodSeg "providers" by decide,
        show goodSeg "Microsoft.Network" by decide⟩
    · exact ⟨show goodSeg "loadBalancers" by decide, h3⟩
    · exact ⟨show goodSeg "frontendIPConfigurations" by decide, h4⟩
  · simp only [List.map_cons, List.map_nil]
    decide

theorem azureid_backend_id (sub rg lb nm : String)
    (h1 : goodSeg sub) (h2 : goodSeg rg) (h3 : goodSeg lb) (h4 : goodSeg nm) :
    azureid_to_dict (backend_address_pool_id sub rg lb nm) =
      [("subscriptions", sub), ("resourceGroups", rg),
       ("providers", "Microsoft.Network"), ("loadBalancers", lb),
       ("backendAddressPools", nm)] := by
  have heq : backend_address_pool_id sub rg lb nm =
      encodePath [("subscriptions", sub), ("resourceGroups", rg),
        ("providers", "Microsoft.Network"), ("loadBalancers", lb),
        ("backendAddressPools", nm)] := by
    apply string_eq_of_data
    have e1 : ("/subscriptions/" : String).data =
        ("/" : String).data ++ ("subscriptions" : String).data ++ ("/" : String).data := by decide
    have e2 : ("/resourceGroups/" : String).data =
        ("/" : String).data ++ ("resourceGroups" : String).data ++ ("/" : String).data := by decide
    have e3 : ("/providers/Microsoft.Network/loadBalancers/" : String).data =
        ("/" : String).data ++ ("providers" : String).data ++ ("/" : String).data ++
        ("Microsoft.Network" : String).data ++ ("/" : String).data ++
        ("loadBalancers" : String).data ++ ("/" : String).data := by decide
    have e4 : ("/backendAddressPools/" : String).data =
        ("/" : String).data ++ ("backendAddressPools" : String).data ++
        ("/" : String).data := by decide
    simp [backend_address_pool_id, encodePath, String.data_append, e1, e2, e3, e4]
  rw [heq]
  apply azureid_to_dict_encodePath
  · simp
  · intro kv hkv
    simp only [List.mem_cons, List.not_mem_nil, or_false] at hkv
    rcases hkv with h | h | h | h | h <;> subst h
    · exact ⟨show goodSeg "subscriptions" by decide, h1⟩
    · exact ⟨show goodSeg "resourceGroups" by decide, h2⟩
    · exact ⟨show goodSeg "providers" by decide,
        show goodSeg "Microsoft.Network" by decide⟩
    · exact ⟨show goodSeg "loadBalancers" by decide, h3⟩
    · exact ⟨show goodSeg "backendAddressPools" by decide, h4⟩
  · simp only [List.map_cons, List.map_nil]
    decide

theorem azureid_probe_id (sub rg lb nm : String)
    (h1 : goodSeg sub) (h2 : goodSeg rg) (h3 : goodSeg lb) (h4 : goodSeg nm) :
    azureid_to_dict (probe_id sub rg lb nm) =
      [("subscriptions", sub), ("resourceGroups", rg),
       ("providers", "Microsoft.Network"), ("loadBalancers", lb),
       ("probes", nm)] := by
  have heq : probe_id sub rg lb nm =
      encodePath [("subscriptions", sub), ("resourceGroups", rg),
        ("providers", "Microsoft.Network"), ("loadBalancers", lb),
        ("probes", nm)] := by
    apply string_eq_of_data
    have e1 : ("/subscriptions/" : String).data =
        ("/" : String).data ++ ("subscriptions" : String).data ++ ("/" : String).data := by decide
    have e2 : ("/resourceGroups/" : String).data =
        ("/" : String).data ++ ("resourceGroups" : String).data ++ ("/" : String).data := by decide
    have e3 : ("/providers/Microsoft.Network/loadBalancers/" : String).data =
        ("/" : String).data ++ ("providers" : String).data ++ ("/" : String).data ++
        ("Microsoft.Network" : String).data ++ ("/" : String).data ++
        ("loadBalancers" : String).data ++ ("/" : String).data := by decide
    have e4 : ("/probes/" : String).data =
        ("/" : String).data ++ ("probes" : String).data ++ ("/" : String).data := by decide
    simp [probe_id, encodePath, String.data_append, e1, e2, e3, e4]
  rw [heq]
  apply azureid_to_dict_encodePath
  · simp
  · intro kv hkv
    simp only [List.mem_cons, List.not_mem_nil, or_false] at hkv
    rcases hkv with h | h | h | h | h <;> subst h
    · exact ⟨show goodSeg "subscriptions" by decide, h1⟩
    · exact ⟨show goodSeg "resourceGroups" by decide, h2⟩
    · exact ⟨show goodSeg "providers" by decide,
        show goodSeg "Microsoft.Network" by decide⟩
    · exact ⟨show goodSeg "loadBalancers" by decide, h3⟩
    · exact ⟨show goodSeg "probes" by decide, h4⟩
  · simp only [List.map_cons, List.map_nil]
    decide

theorem compareFront_ok (sub : String) (dynIp : String → Option String)
    (f : FrontV) (rfs : List (String × FrontState)) (st : FrontState)
    (hpub : pyTruthyS f.public_ip_name = false)
    (hsv : pyTruthyS f.subnet_name ∧ pyTruthyS f.vnet_name)
    (hgsub : goodSeg sub) (hgrg : goodSeg f.resource_group)
    (hgvn : goodSeg (f.vnet_name.getD "")) (hgsn : goodSeg (f.subnet_name.getD ""))
    (hbuild : buildFrontState sub dynIp f = some st)
    (hfind : dictGet rfs f.name = Except.ok st) :
    compareFront rfs f = Except.ok () := by
  unfold buildFrontState at hbuild
  rw [if_neg (by simp [hpub])] at hbuild
  rw [if_pos ⟨hsv.2, hsv.1⟩] at hbuild
  have h1 : dictGet
      [("subscriptions", sub), ("resourceGroups", f.resource_group),
       ("providers", "Microsoft.Network"),
       ("virtualNetworks", f.vnet_name.getD ""),
       ("subnets", f.subnet_name.getD "")] "subnets" =
      Except.ok (f.subnet_name.getD "") := rfl
  have h2 : dictGet
      [("subscriptions", sub), ("resourceGroups", f.resource_group),
       ("providers", "Microsoft.Network"),
       ("virtualNetworks", f.vnet_name.getD ""),
       ("subnets", f.subnet_name.getD "")] "virtualNetworks" =
      Except.ok (f.vnet_name.getD "") := rfl
  have h3 : dictGet
      [("subscriptions", sub), ("resourceGroups", f.resource_group),
       ("providers", "Microsoft.Network"),
       ("virtualNetworks", f.vnet_name.getD ""),
       ("subnets", f.subnet_name.getD "")] "resourceGroups" =
      Except.ok f.resource_group := rfl
  by_cases hpriv : pyTruthyS f.private_ip_address
  · rw [if_pos hpriv] at hbuild
    injection hbuild with hst
    subst hst
    have hok : privateIpCheck f.private_ip_address f.private_ip_address
        (some "Static") = Except.ok () := by
      unfold privateIpCheck
      rw [if_pos hpriv]
      cases hp : f.private_ip_address with
      | none =>
        rw [hp] at hpriv
        simp [pyTruthyS] at hpriv
      | some s => simp [pyStrNeOpt, pyOptNeStr]
    unfold compareFront
    rw [hfind]
    simp only [bindE_ok]
    rw [azureid_subnet_res_id sub f.resource_group (f.vnet_name.getD "")
      (f.subnet_name.getD "") hgsub hgrg hgvn hgsn]
    simp [bindE_ok, pureE, throwE, hpub, hsv.1, hsv.2, h1, h2, h3, hok]
  · rw [if_neg hpriv] at hbuild
    injection hbuild with hst
    subst hst
    have hok : privateIpCheck f.private_ip_address (dynIp f.name)
        (some "Dynamic") = Except.ok () := by
      unfold privateIpCheck
      rw [if_neg (by simp [hpriv])]
      simp [pyOptNeStr]
    unfold compareFront
    rw [hfind]
    simp only [bindE_ok]
    rw [azureid_subnet_res_id sub f.resource_group (f.vnet_name.getD "")
      (f.subnet_name.getD "") hgsub hgrg hgvn hgsn]
    simp [bindE_ok, pureE, throwE, hpub, hsv.1, hsv.2, h1, h2, h3, hok]

theorem compareProbe_ok (p : ProbeV) (rps : List (String × ProbeState))
    (hfind : dictGet rps p.name = Except.ok (buildProbeState p)) :
    compareProbe rps p = Except.ok () := by
  unfold compareProbe
  rw [hfind]
  simp only [bindE_ok]
  by_cases hh : p.protocol = "Http"
  · simp [buildProbeState, bindE_ok, pureE, throwE, pyNatNeOpt, pyStrNeOpt, hh]
  · simp [buildProbeState, bindE_ok, pureE, throwE, pyNatNeOpt, pyStrNeOpt, hh]

theorem compareRule_ok (sub rg lbname : String) (r : RuleV)
    (rrs : List (String × RuleState))
    (hg : goodSeg sub ∧ goodSeg rg ∧ goodSeg lbname)
    (hgr : goodSeg r.frontend_name ∧ goodSeg r.backend_name ∧ goodSeg r.probe_name)
    (hfind : dictGet rrs r.name = Except.ok (buildRuleState sub rg lbname r)) :
    compareRule rrs r = Except.ok () := by
  unfold buildRuleState at hfind
  unfold compareRule
  rw [hfind]
  simp only [bindE_ok]
  rw [azureid_frontend_id sub rg lbname r.frontend_name hg.1 hg.2.1 hg.2.2 hgr.1,
    azureid_probe_id sub rg lbname r.probe_name hg.1 hg.2.1 hg.2.2 hgr.2.2,
    azureid_backend_id sub rg lbname r.backend_name hg.1 hg.2.1 hg.2.2 hgr.2.1]
  have hefi : efiCheck r.enable_floating_ip (some r.enable_floating_ip) =
      Except.ok () := by
    unfold efiCheck
    rw [if_neg]
    simp [pyBoolNeOpt]
  have hfget : dictGet (dictUpdate (dictUpdate
      [("subscriptions", sub), ("resourceGroups", rg),
       ("providers", "Microsoft.Network"), ("loadBalancers", lbname),
       ("frontendIPConfigurations", r.frontend_name)]
      [("subscriptions", sub), ("resourceGroups", rg),
       ("providers", "Microsoft.Network"), ("loadBalancers", lbname),
       ("probes", r.probe_name)])
      [("subscriptions", sub), ("resourceGroups", rg),
       ("providers", "Microsoft.Network"), ("loadBalancers", lbname),
       ("backendAddressPools", r.backend_name)])
      "frontendIPConfigurations" = Except.ok r.frontend_name := rfl
  have hbget : dictGet (dictUpdate (dictUpdate
      [("subscriptions", sub), ("resourceGroups", rg),
       ("providers", "Microsoft.Network"), ("loadBalancers", lbname),
       ("frontendIPConfigurations", r.frontend_name)]
      [("subscriptions", sub), ("resourceGroups", rg),
       ("providers", "Microsoft.Network"), ("loadBalancers", lbname),
       ("probes", r.probe_name)])
      [("subscriptions", sub), ("resourceGroups", rg),
       ("providers", "Microsoft.Network"), ("loadBalancers", lbname),
       ("backendAddressPools", r.backend_name)])
      "backendAddressPools" = Except.ok r.backend_name := rfl
  have hpget : dictGet (dictUpdate (dictUpdate
      [("subscriptions", sub), ("resourceGroups", rg),
       ("providers", "Microsoft.Network"), ("loadBalancers", lbname),
       ("frontendIPConfigurations", r.frontend_name)]
      [("subscriptions", sub), ("resourceGroups", rg),
       ("providers", "Microsoft.Network"), ("loadBalancers", lbname),
       ("probes", r.probe_name)])
      [("subscriptions", sub), ("resourceGroups", rg),
       ("providers", "Microsoft.Network"), ("loadBalancers", lbname),
       ("backendAddressPools", r.backend_name)])
      "probes" = Except.ok r.probe_name := rfl
  simp [bindE_ok, pureE, throwE, pyNatNeOpt, pyStrNeOpt, hfget, hbget, hpget, hefi]

theorem compareNat_ok (sub rg lbname : String) (p : NatRuleV)
    (rns : List (String × NatState))
    (hg : goodSeg sub ∧ goodSeg rg ∧ goodSeg lbname)
    (hgn : goodSeg p.frontend_name)
    (hfind : dictGet rns p.name = Except.ok (buildNatState sub rg lbname p)) :
    compareNat rns p = Except.ok () := by
  unfold buildNatState at hfind
  unfold compareNat
  rw [hfind]
  simp only [bindE_ok]
  rw [azureid_frontend_id sub rg lbname p.frontend_name hg.1 hg.2.1 hg.2.2 hgn]
  have hfget : dictGet
      [("subscriptions", sub), ("resourceGroups", rg),
       ("providers", "Microsoft.Network"), ("loadBalancers", lbname),
       ("frontendIPConfigurations", p.frontend_name)]
      "frontendIPConfigurations" = Except.ok p.frontend_name := rfl
  simp [bindE_ok, pureE, throwE, pyNatNeOpt, pyStrNeOpt, hfget]

end LB

namespace LB

theorem map_name_buildPool (ps : List String) :
    (ps.map buildPoolState).map (fun p => p.name) = ps := by
  induction ps with
  | nil => rfl
  | cons a as ih => simp [buildPoolState, ih]

theorem compareBackends_ok (pools : List String) (hnd : pools.Nodup) :
    compareBackends pools (pools.map buildPoolState) = Except.ok () := by
  unfold compareBackends
  by_cases hne : pools.isEmpty
  · rw [if_pos hne]
  · rw [if_neg hne]
    have hkeys : (list_to_dict (pools.map buildPoolState)
        (fun p => p.name)).map Prod.fst = pools := by
      rw [keys_list_to_dict]
      · exact map_name_buildPool pools
      · rw [map_name_buildPool pools]
        exact hnd
    simp only [hkeys]
    cases he : pySortStr pools with
    | nil =>
      exact absurd he (pySortStr_ne_nil (by simpa [List.isEmpty_iff] using hne))
    | cons r0 rs => simp

theorem buildFrontState_some (sub : String) (dynIp : String → Option String)
    (f : FrontV) (hp : pyTruthyS f.public_ip_name = false)
    (hs : pyTruthyS f.subnet_name ∧ pyTruthyS f.vnet_name) :
    ∃ st, buildFrontState sub dynIp f = some st ∧ st.name = f.name := by
  unfold buildFrontState
  rw [if_neg (by simp [hp]), if_pos ⟨hs.2, hs.1⟩]
  by_cases hpriv : pyTruthyS f.private_ip_address
  · rw [if_pos hpriv]
    exact ⟨_, rfl, rfl⟩
  · rw [if_neg hpriv]
    exact ⟨_, rfl, rfl⟩

theorem buildFronts_names (sub : String) (dynIp : String → Option String) :
    ∀ (fs : List FrontV),
      (∀ f ∈ fs, pyTruthyS f.public_ip_name = false ∧
        (pyTruthyS f.subnet_name ∧ pyTruthyS f.vnet_name)) →
      (fs.filterMap (buildFrontState sub dynIp)).map (fun s => s.name) =
        fs.map (fun fv => fv.name)
  | [], _ => rfl
  | f :: fs, h => by
    obtain ⟨hp, hs⟩ := h f (by simp)
    obtain ⟨st, hb, hn⟩ := buildFrontState_some sub dynIp f hp hs
    simp only [List.filterMap_cons, hb, List.map_cons]
    rw [hn, buildFronts_names sub dynIp fs (fun x hx => h x (by simp [hx]))]

theorem map_name_buildProbe (ps : List ProbeV) :
    (ps.map buildProbeState).map (fun s => s.name) =
      ps.map (fun pv => pv.name) := by
  induction ps with
  | nil => rfl
  | cons a as ih => simp [buildProbeState, ih]

theorem map_name_buildRule (sub rg lbname : String) (rs : List RuleV) :
    (rs.map (buildRuleState sub rg lbname)).map (fun s => s.name) =
      rs.map (fun rv => rv.name) := by
  induction rs with
  | nil => rfl
  | cons a as ih => simp [buildRuleState, ih]

theorem map_name_buildNat (sub rg lbname : String) (ns : List NatRuleV) :
    (ns.map (buildNatState sub rg lbname)).map (fun s => s.name) =
      ns.map (fun nv => nv.name) := by
  induction ns with
  | nil => rfl
  | cons a as ih => simp [buildNatState, ih]

theorem compareAll_build (sub : String) (v : Validated)
    (dynIp : String → Option String)
    (hfn : (v.fronts.map (fun fv => fv.name)).Nodup)
    (hpn : (v.probes.map (fun pv => pv.name)).Nodup)
    (hrn : (v.rules.map (fun rv => rv.name)).Nodup)
    (hnn : (v.nats.map (fun nv => nv.name)).Nodup)
    (hpools : v.backend_pools.Nodup)
    (hfront : ∀ f ∈ v.fronts, pyTruthyS f.public_ip_name = false ∧
      (pyTruthyS f.subnet_name ∧ pyTruthyS f.vnet_name))
    (hwf : wellFormedSegs sub v) :
    compareAll v (buildLB sub v dynIp) = Except.ok () := by
  obtain ⟨hg1, hg2, hg3, hwf4, hwf5, hwf6⟩ := hwf
  have hstage1 : forEachCheck (compareFront (list_to_dict
      (buildLB sub v dynIp).frontend_ip_configurations (fun s => s.name)))
      v.fronts = Except.ok () := by
    apply forEachCheck_ok
    intro f hf
    obtain ⟨hp, hs⟩ := hfront f hf
    obtain ⟨st, hb, hn⟩ := buildFrontState_some sub dynIp f hp hs
    have hmem : st ∈ v.fronts.filterMap (buildFrontState sub dynIp) :=
      List.mem_filterMap.mpr ⟨f, hf, hb⟩
    have hnd2 : ((v.fronts.filterMap (buildFrontState sub dynIp)).map
        (fun s => s.name)).Nodup := by
      rw [buildFronts_names sub dynIp v.fronts hfront]
      exact hfn
    have hfind := dictGet_list_to_dict (fun s : FrontState => s.name)
      (v.fronts.filterMap (buildFrontState sub dynIp)) st hmem hnd2
    have hfind2 : dictGet (list_to_dict
        (v.fronts.filterMap (buildFrontState sub dynIp)) (fun s => s.name))
        f.name = Except.ok st := by
      rw [← hn]
      exact hfind
    exact compareFront_ok sub dynIp f _ st hp hs hg1 (hwf4 f hf).1
      (hwf4 f hf).2.2 (hwf4 f hf).2.1 hb hfind2
  have hstage2 : compareBackends v.backend_pools
      (buildLB sub v dynIp).backend_address_pools = Except.ok () :=
    compareBackends_ok v.backend_pools hpools
  have hstage3 : forEachCheck (compareProbe (list_to_dict
      (buildLB sub v dynIp).probes (fun s => s.name))) v.probes =
      Except.ok () := by
    apply forEachCheck_ok
    intro p hp
    have hmem : buildProbeState p ∈ v.probes.map buildProbeState :=
      List.mem_map_of_mem _ hp
    have hnd2 : ((v.probes.map buildProbeState).map (fun s => s.name)).Nodup := by
      rw [map_name_buildProbe]
      exact hpn
    have hfind := dictGet_list_to_dict (fun s : ProbeState => s.name)
      (v.probes.map buildProbeState) (buildProbeState p) hmem hnd2
    exact compareProbe_ok p _ hfind
  have hstage4 : forEachCheck (compareRule (list_to_dict
      (buildLB sub v dynIp).load_balancing_rules (fun s => s.name))) v.rules =
      Except.ok () := by
    apply forEachCheck_ok
    intro r hr
    have hmem : buildRuleState sub v.resource_group v.name r ∈
        v.rules.map (buildRuleState sub v.resource_group v.name) :=
      List.mem_map_of_mem _ hr
    have hnd2 : ((v.rules.map (buildRuleState sub v.resource_group v.name)).map
        (fun s => s.name)).Nodup := by
      rw [map_name_buildRule]
      exact hrn
    have hfind := dictGet_list_to_dict (fun s : RuleState => s.name)
      (v.rules.map (buildRuleState sub v.resource_group v.name))
      (buildRuleState sub v.resource_group v.name r) hmem hnd2
    exact compareRule_ok sub v.resource_group v.name r _ ⟨hg1, hg2, hg3⟩
      (hwf5 r hr) hfind
  have hstage5 : forEachCheck (compareNat (list_to_dict
      (buildLB sub v dynIp).inbound_nat_rules (fun s => s.name))) v.nats =
      Except.ok () := by
    apply forEachCheck_ok
    intro p hp
    have hmem : buildNatState sub v.resource_group v.name p ∈
        v.nats.map (buildNatState sub v.resource_group v.name) :=
      List.mem_map_of_mem _ hp
    have hnd2 : ((v.nats.map (buildNatState sub v.resource_group v.name)).map
        (fun s => s.name)).Nodup := by
      rw [map_name_buildNat]
      exact hnn
    have hfind := dictGet_list_to_dict (fun s : NatState => s.name)
      (v.nats.map (buildNatState sub v.resource_group v.name))
      (buildNatState sub v.resource_group v.name p) hmem hnd2
    exact compareNat_ok sub v.resource_group v.name p _ ⟨hg1, hg2, hg3⟩
      (hwf6 p hp) hfind
  unfold compareAll
  rw [hstage1]
  simp only [bindE_ok]
  rw [hstage2]
  simp only [bindE_ok]
  rw [hstage3]
  simp only [bindE_ok]
  rw [hstage4]
  simp only [bindE_ok]
  rw [hstage5]

end LB

namespace LB

/-- Counterexample for C1: a desired spec whose frontend is configured by
`public_ip_name`, run against the very state its application produced: the
serialized frontend has `subnet = None`, line 443 subscripts it, and the
run dies with an uncaught `TypeError` instead of reporting
`changed=false`. -/
theorem c1_idempotence_counterexample :
    validate dPub = Except.ok vPub ∧
    execPresent dPub
      { resource_group_exists := true, lb := some (buildLB "sub1" vPub dynFix) } =
      ([NetCall.getResourceGroup, NetCall.getLoadBalancer],
        ExecOutcome.crashed CmpErr.typeError) :=
  ⟨rfl, rfl⟩

/-- C1 (amended): for every desired spec that validates and whose
frontends are all subnet-based (no `public_ip_name`), with usable path
segments and distinct backend pool names, a second run against the state
produced by applying that same spec reports `changed=false` and issues no
create-or-update call. -/
theorem c1_idempotence_subnet_fronts (d : DesiredInput) (sub : String)
    (dynIp : String → Option String) (v : Validated)
    (hval : validate d = Except.ok v)
    (hsubnetOnly : ∀ f ∈ v.fronts, pyTruthyS f.public_ip_name = false)
    (hpools : v.backend_pools.Nodup)
    (hwf : wellFormedSegs sub v) :
    execPresent d
      { resource_group_exists := true, lb := some (buildLB sub v dynIp) } =
      ([NetCall.getResourceGroup, NetCall.getLoadBalancer],
        ExecOutcome.ok false) := by
  obtain ⟨hfn, hpn, hrn, hnn, hfv, -, -, -, -, -⟩ := validate_ok hval
  have hfront : ∀ f ∈ v.fronts, pyTruthyS f.public_ip_name = false ∧
      (pyTruthyS f.subnet_name ∧ pyTruthyS f.vnet_name) := by
    intro f hf
    rcases hfv f hf with h | h
    · exact absurd h (by simp [hsubnetOnly f hf])
    · exact ⟨hsubnetOnly f hf, h⟩
  have hcmp := compareAll_build sub v dynIp hfn hpn hrn hnn hpools hfront hwf
  have hphase : comparePhase v (some (buildLB sub v dynIp)) =
      PhaseResult.unchanged := by
    unfold comparePhase
    dsimp only
    rw [hcmp]
  unfold execPresent
  rw [if_neg (by simp), hval]
  dsimp only
  rw [hphase]

/-- Witness for C1 (amended): the concrete subnet-based spec `dSub`. -/
theorem c1_idempotence_subnet_fronts_witness :
    (validate dSub = Except.ok vSub ∧
      (∀ f ∈ vSub.fronts, pyTruthyS f.public_ip_name = false) ∧
      vSub.backend_pools.Nodup ∧ wellFormedSegs "sub1" vSub) ∧
    execPresent dSub
      { resource_group_exists := true, lb := some (buildLB "sub1" vSub dynFix) } =
      ([NetCall.getResourceGroup, NetCall.getLoadBalancer],
        ExecOutcome.ok false) :=
  ⟨⟨rfl, by decide, by decide, by decide⟩,
    c1_idempotence_subnet_fronts dSub "sub1" dynFix vSub rfl (by decide)
      (by decide) (by decide)⟩

/-- C3 (amended): a spec with a duplicate name in any sub-resource list
fails during validation, before the load balancer is fetched and before
any mutating call — but after the resource-group lookup, which is the one
provider call such a run still makes. -/
theorem c3_duplicate_name_fails_before_lb_fetch (d : DesiredInput) (env : Env)
    (hdup : ¬ (d.frontend_ip_configs.map (fun f => f.name)).Nodup ∨
      ¬ (d.health_probes.map (fun p => p.name)).Nodup ∨
      ¬ (d.load_balancing_rules.map (fun r => r.name)).Nodup ∨
      ¬ (d.inbound_nat_rules.map (fun nt => nt.name)).Nodup) :
    ∃ msg, execPresent d env =
      ([NetCall.getResourceGroup], ExecOutcome.failed msg) := by
  by_cases hrg : env.resource_group_exists
  · cases hv : validate d with
    | error msg =>
      refine ⟨msg, ?_⟩
      unfold execPresent
      rw [if_neg (by simp [hrg]), hv]
    | ok v =>
      exfalso
      obtain ⟨h1, h2, h3, h4, -, e1, e2, e3, e4, -⟩ := validate_ok hv
      rcases hdup with hd | hd | hd | hd
      · exact hd (by rw [e1]; exact nodup_some_map h1)
      · exact hd (by rw [e2]; exact nodup_some_map h2)
      · exact hd (by rw [e3]; exact nodup_some_map h3)
      · exact hd (by rw [e4]; exact nodup_some_map h4)
  · refine ⟨"resource group " ++ d.resource_group ++ " not found", ?_⟩
    unfold execPresent
    rw [if_pos (by simp [hrg])]

/-- Witness for C3 (amended): the duplicate-frontend spec `dDup`. -/
theorem c3_duplicate_name_fails_before_lb_fetch_witness :
    ∃ msg, execPresent dDup { resource_group_exists := true, lb := none } =
      ([NetCall.getResourceGroup], ExecOutcome.failed msg) :=
  c3_duplicate_name_fails_before_lb_fetch dDup
    { resource_group_exists := true, lb := none } (Or.inl (by decide))

end LB
